import Mathlib

/-!
# spago: a single-page-application file handler

A shallow embedding of `spago.go` (package `spago`): the `SPAServer`
configuration, its constructors and builder methods, and the request handler
returned by `Handler`, together with the parts of the Go standard library the
handler calls (`strings`, `path`, `path/filepath`, `io/fs`, `embed`, `os`,
`net/http`).

Conventions.

* A Go `string` is a Lean `String`; `strings.HasPrefix` and friends compare
  the character sequences.
* A `http.ResponseWriter` is the record of what has been written to it:
  the header map, the status line (once written) and the body bytes.
* The operating system is a parameter `Host` of every operation that touches
  the disk, so that the disk may differ from one request to the next.
-/

set_option autoImplicit false

namespace Spago

/-! ## package strings -/

/-- Go `strings.HasPrefix(s, pre)`. -/
def HasPrefix (s pre : String) : Bool :=
  pre.data.isPrefixOf s.data

/-- Go `strings.HasSuffix(s, suf)`. -/
def HasSuffix (s suf : String) : Bool :=
  suf.data.isSuffixOf s.data

/-- Go `strings.TrimPrefix(s, pre)`: `s` without the leading `pre`, or `s`
itself when it does not start with `pre`. -/
def TrimPrefix (s pre : String) : String :=
  if HasPrefix s pre then ⟨s.data.drop pre.data.length⟩ else s

/-- Go `strings.TrimSuffix(s, suf)`. -/
def TrimSuffix (s suf : String) : String :=
  if HasSuffix s suf then ⟨s.data.take (s.data.length - suf.data.length)⟩ else s

/-! ## packages path and path/filepath (Unix) -/

/-- One step of `path.Clean` over the path elements seen so far (`stack`,
innermost first): empty and `.` elements are dropped, `..` removes the
previous real element, is dropped at the root of a rooted path and is kept
at the front of a relative one. -/
def cleanStep (rooted : Bool) (stack : List (List Char)) (e : List Char) :
    List (List Char) :=
  if e = [] ∨ e = ['.'] then stack
  else if e = ['.', '.'] then
    match stack with
    | top :: rest => if top = ['.', '.'] then e :: stack else rest
    | [] => if rooted then [] else [e]
  else e :: stack

/-- Go `path.Clean` (and `filepath.Clean` on Unix): the shortest path name
equivalent to `p` by purely lexical processing. -/
def Clean (p : String) : String :=
  let rooted := HasPrefix p "/"
  let kept := ((p.data.splitOn '/').foldl (cleanStep rooted) []).reverse
  let out := (if rooted then ['/'] else []) ++ ['/'].intercalate kept
  if out = [] then "." else ⟨out⟩

/-- Go `path.Join(a, b)` and `filepath.Join(a, b)` on Unix: the elements from
the first non-empty one on, joined by `/` and cleaned; the empty string when
both are empty. -/
def Join (a b : String) : String :=
  if a = "" then (if b = "" then "" else Clean b)
  else Clean (a ++ "/" ++ b)

/-- Go `path.Base`: the last element of the path, after removing trailing
slashes; `.` for the empty path and `/` for a path of slashes only. -/
def Base (p : String) : String :=
  if p = "" then "."
  else
    let stripped := p.data.reverse.dropWhile (fun c => c == '/')
    let last := (stripped.takeWhile (fun c => c != '/')).reverse
    if last = [] then "/" else ⟨last⟩

/-- Go `filepath.Split`: the directory part, up to and including the final
slash, and the file part after it. -/
def Split (p : String) : String × String :=
  let rev := p.data.reverse
  (⟨(rev.dropWhile (fun c => c != '/')).reverse⟩,
   ⟨(rev.takeWhile (fun c => c != '/')).reverse⟩)

/-! ## package io/fs and package embed -/

/-- The error causes the handler can meet: `fs.ErrInvalid`, `fs.ErrNotExist`,
`fs.ErrPermission`, the `is a directory` error of `embed`, and any other
system error. -/
inductive ErrKind where
  | invalid
  | notExist
  | permission
  | isDirectory
  | other
deriving DecidableEq, Repr

/-- The text of the cause, as Go prints it. -/
def ErrKind.text : ErrKind → String
  | .invalid => "invalid argument"
  | .notExist => "file does not exist"
  | .permission => "permission denied"
  | .isDirectory => "is a directory"
  | .other => "input/output error"

/-- Go `fs.PathError`. -/
structure PathError where
  op : String
  path : String
  err : ErrKind
deriving DecidableEq, Repr

/-- Go `(*fs.PathError).Error`. -/
def PathError.Error (e : PathError) : String :=
  e.op ++ " " ++ e.path ++ ": " ++ e.err.text

/-- What opening a name yields: a regular file with its bytes, or a
directory. -/
inductive Node where
  | file (data : String)
  | dir
deriving DecidableEq, Repr

/-- Go `fs.FileInfo.IsDir`. -/
def Node.IsDir : Node → Bool
  | .dir => true
  | .file _ => false

/-- Go `fs.ValidPath`: `.` or a sequence of elements separated by single
slashes, none of them empty, `.` or `..`. -/
def ValidPath (name : String) : Bool :=
  name == "." ||
    (name.data.splitOn '/').all
      (fun e => !(e == [] || e == ['.'] || e == ['.', '.']))

deriving instance DecidableEq for Except

/-- Go `embed.FS`: the read-only tree of files compiled into the program.
Each file is listed under its slash-separated name with its bytes; the
directories of the tree are the proper ancestors of the files. -/
structure EmbedFS where
  files : List (String × String)
deriving DecidableEq, Repr

/-- Go `embed.FS.lookup`: the entry named `name`, if any. -/
def EmbedFS.lookup (f : EmbedFS) (name : String) : Option Node :=
  if !ValidPath name then none
  else if name = "." then some Node.dir
  else
    match f.files.lookup name with
    | some data => some (Node.file data)
    | none =>
      if f.files.any (fun e => HasPrefix e.1 (name ++ "/")) then some Node.dir
      else none

/-- Go `embed.FS.Open`. -/
def EmbedFS.Open (f : EmbedFS) (name : String) : Except PathError Node :=
  match f.lookup name with
  | none => .error ⟨"open", name, .notExist⟩
  | some n => .ok n

/-- Go `embed.FS.ReadFile`. -/
def EmbedFS.ReadFile (f : EmbedFS) (name : String) : Except PathError String :=
  match f.Open name with
  | .error e => .error e
  | .ok Node.dir => .error ⟨"read", name, .isDirectory⟩
  | .ok (Node.file data) => .ok data

/-- The `fs.FS` values `fs.Sub` produces from an `embed.FS`: the tree itself,
or the `subFS` wrapper rooted at `dir`. -/
inductive FS where
  | embed (fsys : EmbedFS)
  | sub (fsys : EmbedFS) (dir : String)
deriving DecidableEq, Repr

/-- Go `fs.Sub(fsys, dir)` for an `embed.FS`, which does not implement
`fs.SubFS`: an invalid `dir` is an error, `.` is the tree itself, any other
`dir` is wrapped without being looked up. -/
def Sub (fsys : EmbedFS) (dir : String) : Except PathError FS :=
  if !ValidPath dir then .error ⟨"sub", dir, .invalid⟩
  else if dir = "." then .ok (FS.embed fsys)
  else .ok (FS.sub fsys dir)

/-- Go `(*subFS).shorten`: maps a name of the underlying tree back to a
name below `dir`. -/
def shorten (dir name : String) : Option String :=
  if name = dir then some "."
  else if HasPrefix name (dir ++ "/") && name != dir ++ "/" then
    some (TrimPrefix name (dir ++ "/"))
  else none

/-- Go `(*subFS).fixErr`: reports errors under the name the caller used. -/
def fixErr (dir : String) (e : PathError) : PathError :=
  match shorten dir e.path with
  | some short => { e with path := short }
  | none => e

/-- Go `(*subFS).fullName`. -/
def fullName (dir op name : String) : Except PathError String :=
  if !ValidPath name then .error ⟨op, name, .invalid⟩
  else .ok (Join dir name)

/-- Go `fsys.Open(name)` for the two kinds of `fs.FS`. -/
def FS.Open : FS → String → Except PathError Node
  | .embed f, name => f.Open name
  | .sub f dir, name =>
    match fullName dir "open" name with
    | .error e => .error e
    | .ok full =>
      match f.Open full with
      | .error e => .error (fixErr dir e)
      | .ok n => .ok n

/-- Go `fs.Stat(fsys, name)`: neither kind implements `fs.StatFS`, so the
file is opened and asked for its description. -/
def Stat (fsys : FS) (name : String) : Except PathError Node :=
  fsys.Open name

/-- Go `fs.ReadFile(fsys, name)`: both kinds implement `fs.ReadFileFS`. -/
def ReadFile : FS → String → Except PathError String
  | .embed f, name => f.ReadFile name
  | .sub f dir, name =>
    match fullName dir "read" name with
    | .error e => .error e
    | .ok full =>
      match f.ReadFile full with
      | .error e => .error (fixErr dir e)
      | .ok data => .ok data

/-! ## package net/http: requests and response writers -/

/-- Go `http.Header`, restricted to one value per key; keys are written in
their canonical form. -/
abbrev Header := List (String × String)

/-- Go `Header.Get`, with `none` for a key that is not present. -/
def Header.Get (h : Header) (key : String) : Option String :=
  h.lookup key

/-- Go `Header.Del`. -/
def Header.Del (h : Header) (key : String) : Header :=
  h.filter (fun e => e.1 != key)

/-- Go `Header.Set`. -/
def Header.Set (h : Header) (key value : String) : Header :=
  (key, value) :: Header.Del h key

/-- Go `url.URL`, the fields the handler and the file server read. -/
structure URL where
  path : String
  rawQuery : String
deriving DecidableEq, Repr

/-- Go `http.Request`. -/
structure Request where
  method : String
  url : URL
  header : Header
  body : String
deriving DecidableEq, Repr

/-- The state of a `http.ResponseWriter`: the header map, the status code
once the status line has been written, and the body written so far. -/
structure ResponseWriter where
  header : Header
  status : Option Nat
  body : String
deriving DecidableEq, Repr

/-- A response writer nothing has been written to. -/
def ResponseWriter.fresh : ResponseWriter :=
  { header := [], status := none, body := "" }

/-- Go `w.Header().Set(key, value)`; changing the header map after the
status line has been written has no effect on the response. -/
def ResponseWriter.SetHeader (w : ResponseWriter) (key value : String) :
    ResponseWriter :=
  if w.status.isSome then w else { w with header := Header.Set w.header key value }

/-- Go `w.Header().Del(key)`. -/
def ResponseWriter.DelHeader (w : ResponseWriter) (key : String) : ResponseWriter :=
  if w.status.isSome then w else { w with header := Header.Del w.header key }

/-- Go `w.WriteHeader(code)`; a second call is ignored. -/
def ResponseWriter.WriteHeader (w : ResponseWriter) (code : Nat) : ResponseWriter :=
  if w.status.isSome then w else { w with status := some code }

/-- Go `w.Write(data)`: writes the status line with 200 if it has not been
written, then appends the bytes. The Content-Type a server sniffs from the
first bytes when none is set is not recorded. -/
def ResponseWriter.Write (w : ResponseWriter) (data : String) : ResponseWriter :=
  let w1 := w.WriteHeader 200
  { w1 with body := w1.body ++ data }

/-- The Content-Type header of the response, if set. -/
def ResponseWriter.contentType (w : ResponseWriter) : Option String :=
  Header.Get w.header "Content-Type"

/-- Go `http.Error(w, msg, code)`: a plain-text reply whose body is the
message followed by a newline. -/
def Error (w : ResponseWriter) (msg : String) (code : Nat) : ResponseWriter :=
  let w1 := w.DelHeader "Content-Length"
  let w2 := w1.SetHeader "Content-Type" "text/plain; charset=utf-8"
  let w3 := w2.SetHeader "X-Content-Type-Options" "nosniff"
  (w3.WriteHeader code).Write (msg ++ "\n")

/-- Go `http.NotFound(w, r)`. -/
def NotFound (w : ResponseWriter) (_r : Request) : ResponseWriter :=
  Error w "404 page not found" 404

/-- Go `http.toHTTPError`: the reply for a failed open. -/
def toHTTPError : ErrKind → String × Nat
  | .notExist => ("404 page not found", 404)
  | .permission => ("403 Forbidden", 403)
  | _ => ("500 Internal Server Error", 500)

/-- Go `http.localRedirect`: a 301 reply to a path relative to the request. -/
def localRedirect (w : ResponseWriter) (r : Request) (newPath : String) :
    ResponseWriter :=
  let target := if r.url.rawQuery != "" then newPath ++ "?" ++ r.url.rawQuery else newPath
  (w.SetHeader "Location" target).WriteHeader 301

/-- Go `http.containsDotDot`: some element of the path, split at `/` and
`\`, is `..`. -/
def containsDotDot (v : String) : Bool :=
  (v.data.splitOnP (fun c => c == '/' || c == '\\')).any (fun e => e == ['.', '.'])

/-- The request headers `http.serveContent` examines before sending the
whole file: preconditions and byte ranges. -/
def conditionalHeaders : List String :=
  ["If-Match", "If-Unmodified-Since", "If-None-Match", "If-Modified-Since",
   "Range", "If-Range"]

/-- Whether the request carries a precondition or a byte range. -/
def Request.conditional (r : Request) : Bool :=
  r.header.any (fun e => conditionalHeaders.contains e.1)

/-- The operating system and the parts of `net/http` that depend on it.

* `Stat` is `os.Stat`, `Open` is `os.Open` followed by reading the file; both
  take the path as the program passes it and may fail for any reason.
* `typeOf name content` is the Content-Type `http.serveContent` chooses, from
  the extension table of the host or by sniffing, when none is set.
* `conditionalReply` is what `http.serveContent` answers to a request with
  preconditions or byte ranges (304, 412, 206, 416 or the whole file), which
  depends on modification times.
* `dirList name` is the body of the directory listing of `name`. -/
structure Host where
  Stat : String → Except ErrKind Node
  Open : String → Except ErrKind Node
  typeOf : String → String → String
  conditionalReply : ResponseWriter → Request → String → String → ResponseWriter
  dirList : String → String

/-- Go `http.serveContent` for a file named `name` with bytes `content`: a
Content-Type already set is kept, the status is 200 and the body is the whole
content, except for a HEAD request. The headers Last-Modified, Accept-Ranges
and Content-Length it adds are not recorded. -/
def serveContent (host : Host) (w : ResponseWriter) (r : Request)
    (name content : String) : ResponseWriter :=
  if r.conditional then host.conditionalReply w r name content
  else
    let w1 := if w.contentType.isSome then w
      else w.SetHeader "Content-Type" (host.typeOf name content)
    let w2 := w1.WriteHeader 200
    if r.method = "HEAD" then w2 else w2.Write content

/-- Go `http.dirList`, preceded by the modification-time check that
`http.serveFile` makes for a directory. -/
def dirList (host : Host) (w : ResponseWriter) (r : Request) (name : String) :
    ResponseWriter :=
  if r.conditional then host.conditionalReply w r name (host.dirList name)
  else (w.SetHeader "Content-Type" "text/html; charset=utf-8").Write (host.dirList name)

/-- Whether the last byte of the URL path is a slash. -/
def endsInSlash (url : String) : Bool :=
  url.data.getLast? == some '/'

/-- Go `http.serveFile(w, r, fs, name, redirect)` over a `http.FileSystem`
given by its `Open` method, with errors already reduced to their cause. -/
def serveFileFS (host : Host) (fsOpen : String → Except ErrKind Node)
    (w : ResponseWriter) (r : Request) (name : String) (redirect : Bool) :
    ResponseWriter :=
  if HasSuffix r.url.path "/index.html" then localRedirect w r "./"
  else
    match fsOpen name with
    | .error e => Error w (toHTTPError e).1 (toHTTPError e).2
    | .ok d =>
      let url := r.url.path
      if redirect && d.IsDir && !endsInSlash url then
        localRedirect w r (Base url ++ "/")
      else if redirect && !d.IsDir && endsInSlash url then
        if Base url = "/" ∨ Base url = "." then
          Error w "http: attempting to traverse a non-directory" 500
        else localRedirect w r ("../" ++ Base url)
      else
        match d with
        | Node.file data => serveContent host w r (Base name) data
        | Node.dir =>
          if !endsInSlash url then localRedirect w r (Base url ++ "/")
          else
            let index := TrimSuffix name "/" ++ "/index.html"
            match fsOpen index with
            | .ok (Node.file data) => serveContent host w r "index.html" data
            | .ok Node.dir => dirList host w r index
            | .error _ => dirList host w r name

/-- Go `http.mapOpenError`: an open that failed for a reason other than a
missing file or a permission is reported as a missing file when some proper
part of the name is a file rather than a directory. -/
def mapOpenError (original : ErrKind) (name : String)
    (stat : String → Except ErrKind Node) : ErrKind :=
  if original = .notExist ∨ original = .permission then original
  else
    let parts := name.data.splitOn '/'
    (List.range parts.length).foldr
      (fun i rest =>
        if parts.getD i [] = [] then rest
        else
          match stat ⟨['/'].intercalate (parts.take (i + 1))⟩ with
          | .error _ => original
          | .ok n => if n.IsDir then rest else .notExist)
      original

/-- Go `http.Dir(dir).Open(name)`. -/
def DirOpen (host : Host) (dir name : String) : Except ErrKind Node :=
  let p := TrimPrefix (Clean ("/" ++ name)) "/"
  let p := if p = "" then "." else p
  let dir := if dir = "" then "." else dir
  let full := Join dir p
  match host.Open full with
  | .error e => .error (mapOpenError e full host.Stat)
  | .ok n => .ok n

/-- Go `http.FS(fsys).Open(name)`. -/
def ioFSOpen (fsys : FS) (name : String) : Except ErrKind Node :=
  let name := if name = "/" then "." else TrimPrefix name "/"
  match fsys.Open name with
  | .error e =>
    .error (mapOpenError e.err name
      (fun p => match Stat fsys p with
        | .error e1 => .error e1.err
        | .ok n => .ok n))
  | .ok n => .ok n

/-- Go `http.ServeFile(w, r, name)`: rejects a request whose URL path has a
`..` element, otherwise replies with the named file or directory. -/
def ServeFile (host : Host) (w : ResponseWriter) (r : Request) (name : String) :
    ResponseWriter :=
  if containsDotDot r.url.path then Error w "invalid URL path" 400
  else serveFileFS host (DirOpen host (Split name).1) w r (Split name).2 false

/-- Go `http.FileServer(http.FS(fsys)).ServeHTTP(w, r)`. -/
def FileServer (host : Host) (fsys : FS) (w : ResponseWriter) (r : Request) :
    ResponseWriter :=
  let r1 : Request :=
    if HasPrefix r.url.path "/" then r
    else { r with url := { r.url with path := "/" ++ r.url.path } }
  serveFileFS host (ioFSOpen fsys) w r1 (Clean r1.url.path) true

/-! ## package spago -/

/-- Go `type SPAServer struct`. The field `fs` is read only when `useFS` is
set, and `NewFromFS`, the only place that sets `useFS`, always fills it; for a
directory-backed server, where Go leaves the interface nil, it holds the empty
tree. -/
structure SPAServer where
  fs : FS
  dirPath : String
  useFS : Bool
  basePath : String
  entryPath : String
deriving DecidableEq, Repr

/-- Go `NewFromFS(contentFS, subPath)`. -/
def NewFromFS (contentFS : EmbedFS) (subPath : String) : Except PathError SPAServer :=
  match Sub contentFS subPath with
  | .error err => .error err
  | .ok subFS =>
    .ok { fs := subFS, dirPath := "", useFS := true, basePath := "/",
          entryPath := "index.html" }

/-- Go `NewFromDir(dirPath)`. -/
def NewFromDir (dirPath : String) : SPAServer :=
  { fs := FS.embed ⟨[]⟩, dirPath := dirPath, useFS := false, basePath := "/",
    entryPath := "index.html" }

/-- Go `(*SPAServer).WithBasePath`. -/
def SPAServer.WithBasePath (s : SPAServer) (path : String) : SPAServer :=
  let path := if !HasPrefix path "/" then "/" ++ path else path
  let path := if !HasSuffix path "/" && path != "/" then path ++ "/" else path
  { s with basePath := path }

/-- Go `(*SPAServer).WithEntryFile`. -/
def SPAServer.WithEntryFile (s : SPAServer) (entryPath : String) : SPAServer :=
  { s with entryPath := entryPath }

/-- Go `(*SPAServer).fileExists`. -/
def SPAServer.fileExists (host : Host) (s : SPAServer) (path : String) : Bool :=
  if s.useFS then
    match Stat s.fs path with
    | .ok _ => true
    | .error _ => false
  else
    let fullPath := Join s.dirPath path
    match host.Stat fullPath with
    | .ok _ => true
    | .error _ => false

/-- Go `(*SPAServer).serveEntry`. -/
def SPAServer.serveEntry (host : Host) (s : SPAServer) (w : ResponseWriter)
    (r : Request) : ResponseWriter :=
  let w := w.SetHeader "Content-Type" "text/html"
  if s.useFS then
    match ReadFile s.fs s.entryPath with
    | .error _ => Error w "Internal Server Error" 500
    | .ok content => w.Write content
  else
    ServeFile host w r (Join s.dirPath s.entryPath)

/-- Go `cloneRequest`: a copy of the request with a URL of its own. -/
def cloneRequest (r : Request) : Request :=
  { method := r.method, url := { path := r.url.path, rawQuery := r.url.rawQuery },
    header := r.header, body := r.body }

/-- Go `(*SPAServer).serveFile`. -/
def SPAServer.serveFile (host : Host) (s : SPAServer) (w : ResponseWriter)
    (r : Request) (path : String) : ResponseWriter :=
  if s.useFS then
    let r2 := cloneRequest r
    let r2 := { r2 with url := { r2.url with path := "/" ++ path } }
    FileServer host s.fs w r2
  else w

/-- The function `(*SPAServer).Handler` returns, applied to a response writer
and a request. -/
def SPAServer.Handler (host : Host) (s : SPAServer) (w : ResponseWriter)
    (r : Request) : ResponseWriter :=
  if !HasPrefix r.url.path s.basePath then NotFound w r
  else
    let path := TrimPrefix r.url.path s.basePath
    let path := TrimPrefix path "/"
    if path = "" then s.serveEntry host w r
    else
      let exists_ := s.fileExists host path
      if exists_ then
        let w := if HasSuffix path ".js" then
            w.SetHeader "Content-Type" "application/javascript"
          else w
        s.serveFile host w r path
      else s.serveEntry host w r

/-- The relative path the handler function computes from the request
(`spago.go` lines 68 and 69): the URL path without the basePath and without
one leading slash. -/
def SPAServer.relativePath (s : SPAServer) (r : Request) : String :=
  TrimPrefix (TrimPrefix r.url.path s.basePath) "/"

/-- What `http.ServeFile` obtains when it opens the entry document of a
directory-backed handler: the open `serveEntry` causes, on the name
`filepath.Join(dirPath, entryPath)` split into directory and file. -/
def SPAServer.openEntry (host : Host) (s : SPAServer) : Except ErrKind Node :=
  DirOpen host (Split (Join s.dirPath s.entryPath)).1 (Split (Join s.dirPath s.entryPath)).2

/-! ## Requests as heap objects

The handler receives a `*http.Request`, and `serveFile` copies it before it
rewrites the URL path. To speak about what happens to the caller's request,
the functions that write to a request are given a second time over an
explicit heap. -/

/-- Go `http.Request` as it lies in memory: the `URL` field is a pointer to
a `url.URL`. The header map is kept by value; no code here writes to it. -/
structure RequestObj where
  method : String
  url : Nat
  header : Header
  body : String

/-- The part of the Go heap the handler works on: the request objects and
the URL objects by address, and the next unused address of each kind. -/
structure Heap where
  requests : Nat → RequestObj
  urls : Nat → URL
  nextRequest : Nat
  nextURL : Nat

/-- The request found at address `r`, with its URL. -/
def Heap.read (h : Heap) (r : Nat) : Request :=
  { method := (h.requests r).method, url := h.urls (h.requests r).url,
    header := (h.requests r).header, body := (h.requests r).body }

/-- Go `r.URL.Path = path` for the request at address `r`. -/
def Heap.setPath (h : Heap) (r : Nat) (path : String) : Heap :=
  { h with
    urls := Function.update h.urls (h.requests r).url
      ({ (h.urls (h.requests r).url) with path := path }) }

/-- Go `cloneRequest(r)` on the heap: `r2 := new(http.Request); *r2 = *r;
r2.URL = new(url.URL); *r2.URL = *r.URL; return r2`. -/
def cloneRequestAt (h : Heap) (r : Nat) : Heap × Nat :=
  ({ requests := Function.update h.requests h.nextRequest
        ({ (h.requests r) with url := h.nextURL }),
     urls := Function.update h.urls h.nextURL (h.urls (h.requests r).url),
     nextRequest := h.nextRequest + 1,
     nextURL := h.nextURL + 1 },
   h.nextRequest)

/-- Go `http.FileServer(http.FS(fsys)).ServeHTTP(w, r)` on the heap: a URL
path without a leading slash is rewritten in the request it was given. -/
def FileServerAt (host : Host) (fsys : FS) (h : Heap) (w : ResponseWriter) (r : Nat) :
    Heap × ResponseWriter :=
  let upath := (h.read r).url.path
  let h1 := if HasPrefix upath "/" then h else h.setPath r ("/" ++ upath)
  (h1, serveFileFS host (ioFSOpen fsys) w (h1.read r) (Clean (h1.read r).url.path) true)

/-- Go `(*SPAServer).serveFile` on the heap. -/
def SPAServer.serveFileAt (host : Host) (s : SPAServer) (h : Heap) (w : ResponseWriter)
    (r : Nat) (path : String) : Heap × ResponseWriter :=
  if s.useFS then
    let c := cloneRequestAt h r
    let h2 := c.1.setPath c.2 ("/" ++ path)
    FileServerAt host s.fs h2 w c.2
  else (h, w)

/-- The handler function on the heap. `http.NotFound`, `http.ServeFile`,
`fileExists` and `serveEntry` only read the request. -/
def SPAServer.HandlerAt (host : Host) (s : SPAServer) (h : Heap) (w : ResponseWriter)
    (r : Nat) : Heap × ResponseWriter :=
  if !HasPrefix (h.read r).url.path s.basePath then (h, NotFound w (h.read r))
  else
    let path := TrimPrefix (h.read r).url.path s.basePath
    let path := TrimPrefix path "/"
    if path = "" then (h, s.serveEntry host w (h.read r))
    else
      let exists_ := s.fileExists host path
      if exists_ then
        let w := if HasSuffix path ".js" then
            w.SetHeader "Content-Type" "application/javascript"
          else w
        s.serveFileAt host h w r path
      else (h, s.serveEntry host w (h.read r))

/-! ## The receiver across calls -/

/-- A call on a `*SPAServer`: one of the two builder methods, or one run of
the handler function on a host, a response writer and a request. -/
inductive Call where
  | withBasePath (path : String)
  | withEntryFile (entryPath : String)
  | serve (host : Host) (w : ResponseWriter) (r : Request)

/-- The receiver after a call. The builder methods assign one field each; the
handler function and the methods it calls (`fileExists`, `serveEntry`,
`serveFile`) assign to no field of the receiver. -/
def SPAServer.after (s : SPAServer) : Call → SPAServer
  | .withBasePath path => s.WithBasePath path
  | .withEntryFile entryPath => s.WithEntryFile entryPath
  | .serve _ _ _ => s

/-! ## Example trees, disks and requests -/

/-- A disk given by the list of its paths. -/
def diskLookup (disk : List (String × Node)) (p : String) : Except ErrKind Node :=
  match disk.lookup p with
  | some n => .ok n
  | none => .error .notExist

/-- A host over a listed disk; it serves conditional requests in full. -/
def hostOf (disk : List (String × Node)) : Host :=
  ⟨diskLookup disk, diskLookup disk, fun _ _ => "application/octet-stream",
   fun w _ _ content => (w.WriteHeader 200).Write content, fun _ => ""⟩

/-- A directory `/srv/www` holding `index.html` and `bundle.js`. -/
def exampleDisk : List (String × Node) :=
  [("/srv/www", Node.dir), ("/srv/www/index.html", Node.file "<html>"),
   ("/srv/www/bundle.js", Node.file "js();")]

/-- The directory `/srv/www` after `index.html` has been deleted. -/
def exampleDiskNoEntry : List (String × Node) :=
  [("/srv/www", Node.dir), ("/srv/www/bundle.js", Node.file "js();")]

/-- An embedded tree holding `index.html` and `bundle.js`. -/
def exampleTree : EmbedFS :=
  ⟨[("index.html", "<html>"), ("bundle.js", "js();")]⟩

/-- The embedded-tree handler over `exampleTree`, as `NewFromFS` builds it. -/
def exampleEmbedded : SPAServer :=
  { fs := FS.embed exampleTree, dirPath := "", useFS := true, basePath := "/",
    entryPath := "index.html" }

/-- A GET request for `path` without query, headers or body. -/
def GET (path : String) : Request :=
  { method := "GET", url := { path := path, rawQuery := "" }, header := [], body := "" }

/-- Go `http.writeNotModified`: the 304 reply, sent without the headers that
describe a body. -/
def writeNotModified (w : ResponseWriter) : ResponseWriter :=
  let w1 := w.DelHeader "Content-Type"
  let w2 := w1.DelHeader "Content-Length"
  let w3 := w2.DelHeader "Content-Encoding"
  let w4 := if (Header.Get w3.header "Etag").getD "" != "" then
      w3.DelHeader "Last-Modified" else w3
  w4.WriteHeader 304

/-- A host without disk whose conditional reply is the one of
`http.checkPreconditions` for the header `If-None-Match: *`: a GET or HEAD
request carrying it is answered by `http.writeNotModified`; any other
conditional request is served in full. -/
def exampleHostNotModified : Host :=
  ⟨diskLookup [], diskLookup [], fun _ _ => "application/octet-stream",
   fun w r _ content =>
     if Header.Get r.header "If-None-Match" = some "*" ∧
         (r.method = "GET" ∨ r.method = "HEAD") then writeNotModified w
     else (w.WriteHeader 200).Write content,
   fun _ => ""⟩

/-- The request `GET /bundle.js` with the header `If-None-Match: *`. -/
def exampleConditionalGet : Request :=
  { method := "GET", url := { path := "/bundle.js", rawQuery := "" },
    header := [("If-None-Match", "*")], body := "" }

/-- A heap holding one request, `GET /app/bundle.js`, at address 0 with its
URL at address 0. -/
def exampleHeap : Heap :=
  { requests := fun _ => { method := "GET", url := 0, header := [], body := "" },
    urls := fun _ => { path := "/app/bundle.js", rawQuery := "" },
    nextRequest := 1, nextURL := 1 }

/-! ## Theorems -/

/-! ### Strings and response writers -/

theorem HasPrefix_eq_true_iff (s pre : String) :
    HasPrefix s pre = true ↔ pre.data <+: s.data := by
  simp [HasPrefix]

theorem HasSuffix_eq_true_iff (s suf : String) :
    HasSuffix s suf = true ↔ suf.data <:+ s.data := by
  simp [HasSuffix]

theorem data_ne_nil_of_ne_empty (p : String) (h : p ≠ "") : p.data ≠ [] := by
  intro h0
  apply h
  cases p
  simp_all

theorem Error_status (w : ResponseWriter) (msg : String) (code : Nat)
    (hw : w.status = none) : (Error w msg code).status = some code := by
  simp [Error, ResponseWriter.Write, ResponseWriter.WriteHeader,
    ResponseWriter.SetHeader, ResponseWriter.DelHeader, hw]

theorem Error_body (w : ResponseWriter) (msg : String) (code : Nat) :
    (Error w msg code).body = w.body ++ (msg ++ "\n") := by
  by_cases hw : w.status.isSome <;>
    simp [Error, ResponseWriter.Write, ResponseWriter.WriteHeader,
      ResponseWriter.SetHeader, ResponseWriter.DelHeader, hw]

theorem Error_contentType (w : ResponseWriter) (msg : String) (code : Nat)
    (hw : w.status = none) :
    (Error w msg code).contentType = some "text/plain; charset=utf-8" := by
  simp [Error, ResponseWriter.Write, ResponseWriter.WriteHeader,
    ResponseWriter.SetHeader, ResponseWriter.DelHeader, hw,
    ResponseWriter.contentType, Header.Get, Header.Set, Header.Del, List.lookup]

/-! ### C1 -/

/-- C1: a request whose URL path does not have the stored basePath as a
string prefix is answered by `http.NotFound`, with status 404 and the
standard not-found body, and the reply is the same for every other handler
with that basePath, whatever its asset source and whatever the disk holds. -/
theorem C1_outside_base_path_not_found (host host' : Host) (s s' : SPAServer)
    (r : Request) (hbase : s'.basePath = s.basePath)
    (hout : HasPrefix r.url.path s.basePath = false) :
    (∀ w, s.Handler host w r = NotFound w r) ∧
    (s.Handler host ResponseWriter.fresh r).status = some 404 ∧
    (s.Handler host ResponseWriter.fresh r).body = "404 page not found\n" ∧
    (∀ w, s'.Handler host' w r = s.Handler host w r) := by
  have h1 : ∀ w, s.Handler host w r = NotFound w r := by
    intro w
    simp [SPAServer.Handler, hout]
  have h2 : ∀ w, s'.Handler host' w r = NotFound w r := by
    intro w
    simp [SPAServer.Handler, hbase, hout]
  refine ⟨h1, ?_, ?_, ?_⟩
  · rw [h1]
    exact Error_status _ _ _ rfl
  · rw [h1, NotFound, Error_body]
    rfl
  · intro w
    rw [h1, h2]

/-- C1 at mount `/app/` and request `/other/page`, for a directory-backed and
an embedded-tree handler. -/
theorem C1_outside_base_path_not_found_witness :
    HasPrefix (GET "/other/page").url.path
        ((NewFromDir "/srv/www").WithBasePath "app").basePath = false ∧
    (((NewFromDir "/srv/www").WithBasePath "app").Handler (hostOf exampleDisk)
        ResponseWriter.fresh (GET "/other/page")).status = some 404 :=
  ⟨by decide,
   (C1_outside_base_path_not_found (hostOf exampleDisk) (hostOf [])
      ((NewFromDir "/srv/www").WithBasePath "app")
      (exampleEmbedded.WithBasePath "/app/") (GET "/other/page")
      (by decide) (by decide)).2.1⟩

/-! ### WithBasePath -/

theorem HasPrefix_slash_iff (s : String) :
    HasPrefix s "/" = true ↔ ∃ t, s.data = '/' :: t := by
  rw [HasPrefix_eq_true_iff]
  constructor
  · rintro ⟨t, ht⟩
    exact ⟨t, by simpa using ht.symm⟩
  · rintro ⟨t, ht⟩
    exact ⟨t, by simpa using ht.symm⟩

theorem HasSuffix_slash_iff (s : String) :
    HasSuffix s "/" = true ↔ ∃ t, s.data = t ++ ['/'] := by
  rw [HasSuffix_eq_true_iff]
  constructor
  · rintro ⟨t, ht⟩
    exact ⟨t, by simpa using ht.symm⟩
  · rintro ⟨t, ht⟩
    exact ⟨t, by simpa using ht.symm⟩

theorem HasPrefix_slash_append (p : String) : HasPrefix ("/" ++ p) "/" = true := by
  rw [HasPrefix_slash_iff]
  exact ⟨p.data, by simp⟩

theorem HasSuffix_append_slash (p : String) : HasSuffix (p ++ "/") "/" = true := by
  rw [HasSuffix_slash_iff]
  exact ⟨p.data, by simp⟩

theorem HasPrefix_append_of_HasPrefix (p q pre : String)
    (h : HasPrefix p pre = true) : HasPrefix (p ++ q) pre = true := by
  rw [HasPrefix_eq_true_iff] at *
  simpa using h.trans (List.prefix_append p.data q.data)

theorem HasSuffix_slash_append_of_ne (p : String) (hne : p ≠ "")
    (h : HasSuffix p "/" = false) : HasSuffix ("/" ++ p) "/" = false := by
  rw [Bool.eq_false_iff] at *
  intro hc
  apply h
  rw [HasSuffix_slash_iff] at *
  obtain ⟨t, ht⟩ := hc
  have hp := data_ne_nil_of_ne_empty p hne
  cases t with
  | nil =>
    simp at ht
    exact absurd ht hp
  | cons c t =>
    simp at ht
    exact ⟨t, ht.2⟩

theorem HasPrefix_append_slash_of_ne (p : String) (hne : p ≠ "")
    (h : HasPrefix p "/" = false) : HasPrefix (p ++ "/") "/" = false := by
  rw [Bool.eq_false_iff] at *
  intro hc
  apply h
  rw [HasPrefix_slash_iff] at *
  obtain ⟨t, ht⟩ := hc
  have hp := data_ne_nil_of_ne_empty p hne
  cases hd : p.data with
  | nil => exact absurd hd hp
  | cons c l =>
    rw [String.data_append, hd] at ht
    simp at ht
    exact ⟨l, by rw [ht.1]⟩

theorem WithBasePath_invariant (s : SPAServer) (path : String) :
    HasPrefix (s.WithBasePath path).basePath "/" = true ∧
    HasSuffix (s.WithBasePath path).basePath "/" = true := by
  have key : ∀ q : String, HasPrefix q "/" = true →
      HasPrefix (if (!HasSuffix q "/" && q != "/") = true then q ++ "/" else q) "/" = true ∧
      HasSuffix (if (!HasSuffix q "/" && q != "/") = true then q ++ "/" else q) "/" = true := by
    intro q hq
    by_cases hs : HasSuffix q "/" = true
    · simp [hs, hq]
    · have hs' : HasSuffix q "/" = false := by simpa using hs
      have hne : q ≠ "/" := by
        intro h
        rw [h] at hs'
        exact absurd hs' (by decide)
      simp [hs', hne, HasSuffix_append_slash, HasPrefix_append_of_HasPrefix _ _ _ hq]
  unfold SPAServer.WithBasePath
  by_cases hp : HasPrefix path "/" = true
  · simpa [hp] using key path hp
  · have hp' : HasPrefix path "/" = false := by simpa using hp
    simpa [hp'] using key ("/" ++ path) (HasPrefix_slash_append path)

theorem WithBasePath_bare (s : SPAServer) (p : String) (hne : p ≠ "")
    (hpre : HasPrefix p "/" = false) (hsuf : HasSuffix p "/" = false) :
    s.WithBasePath p = { s with basePath := "/" ++ p ++ "/" } ∧
    s.WithBasePath ("/" ++ p) = { s with basePath := "/" ++ p ++ "/" } ∧
    s.WithBasePath (p ++ "/") = { s with basePath := "/" ++ p ++ "/" } ∧
    s.WithBasePath ("/" ++ p ++ "/") = { s with basePath := "/" ++ p ++ "/" } := by
  have a1 := HasPrefix_slash_append p
  have a2 := HasSuffix_slash_append_of_ne p hne hsuf
  have a3 := HasPrefix_append_slash_of_ne p hne hpre
  have a4 := HasSuffix_append_slash p
  have a5 := HasSuffix_append_slash ("/" ++ p)
  have a6 := HasPrefix_append_of_HasPrefix ("/" ++ p) "/" "/" a1
  have a7 := HasPrefix_slash_append (p ++ "/")
  have a8 : HasSuffix ("/" ++ (p ++ "/")) "/" = true := by
    rw [← String.append_assoc]
    exact a5
  have n1 : "/" ++ p ≠ "/" := by
    intro h
    rw [h] at a2
    exact absurd a2 (by decide)
  refine ⟨?_, ?_, ?_, ?_⟩
  · simp [SPAServer.WithBasePath, hpre, a2, n1]
  · simp [SPAServer.WithBasePath, a1, a2, n1]
  · simp [SPAServer.WithBasePath, a3, a8, String.append_assoc]
  · simp [SPAServer.WithBasePath, a6, a5]

/-! ### C9 -/

/-- C9: for a non-empty `p` that neither starts nor ends with `/`, the four
spellings `p`, `/p`, `p/` and `/p/` given to `WithBasePath` all store the
basePath `/p/`, so the four handlers are the same handler and give the same
response to every request on every host. -/
theorem C9_base_path_spellings_agree (s : SPAServer) (p : String) (hne : p ≠ "")
    (hpre : HasPrefix p "/" = false) (hsuf : HasSuffix p "/" = false) :
    (s.WithBasePath p).basePath = "/" ++ p ++ "/" ∧
    (s.WithBasePath ("/" ++ p)).basePath = "/" ++ p ++ "/" ∧
    (s.WithBasePath (p ++ "/")).basePath = "/" ++ p ++ "/" ∧
    (s.WithBasePath ("/" ++ p ++ "/")).basePath = "/" ++ p ++ "/" ∧
    (∀ host w r,
      (s.WithBasePath ("/" ++ p)).Handler host w r = (s.WithBasePath p).Handler host w r ∧
      (s.WithBasePath (p ++ "/")).Handler host w r = (s.WithBasePath p).Handler host w r ∧
      (s.WithBasePath ("/" ++ p ++ "/")).Handler host w r =
        (s.WithBasePath p).Handler host w r) := by
  obtain ⟨h1, h2, h3, h4⟩ := WithBasePath_bare s p hne hpre hsuf
  refine ⟨by rw [h1], by rw [h2], by rw [h3], by rw [h4], ?_⟩
  intro host w r
  rw [h1, h2, h3, h4]
  exact ⟨rfl, rfl, rfl⟩

/-- C9 at `app` versus `/app/`: both store `/app/` and answer `/app/missing`
alike. -/
theorem C9_base_path_spellings_agree_witness :
    ("app" : String) ≠ "" ∧ HasPrefix "app" "/" = false ∧ HasSuffix "app" "/" = false ∧
    (exampleEmbedded.WithBasePath "app").basePath = "/app/" ∧
    (exampleEmbedded.WithBasePath "/app/").Handler (hostOf []) ResponseWriter.fresh
        (GET "/app/missing") =
      (exampleEmbedded.WithBasePath "app").Handler (hostOf []) ResponseWriter.fresh
        (GET "/app/missing") :=
  ⟨by decide, by decide, by decide,
   (C9_base_path_spellings_agree exampleEmbedded "app" (by decide) (by decide)
      (by decide)).1,
   ((C9_base_path_spellings_agree exampleEmbedded "app" (by decide) (by decide)
      (by decide)).2.2.2.2 (hostOf []) ResponseWriter.fresh (GET "/app/missing")).2.2⟩

/-! ### C10 -/

theorem after_invariant (s : SPAServer) (c : Call)
    (h : HasPrefix s.basePath "/" = true ∧ HasSuffix s.basePath "/" = true) :
    HasPrefix (s.after c).basePath "/" = true ∧
    HasSuffix (s.after c).basePath "/" = true := by
  cases c with
  | withBasePath path => exact WithBasePath_invariant s path
  | withEntryFile entryPath => exact h
  | serve host w r => exact h

theorem foldl_after_invariant (calls : List Call) (s : SPAServer)
    (h : HasPrefix s.basePath "/" = true ∧ HasSuffix s.basePath "/" = true) :
    HasPrefix (calls.foldl SPAServer.after s).basePath "/" = true ∧
    HasSuffix (calls.foldl SPAServer.after s).basePath "/" = true := by
  induction calls generalizing s with
  | nil => exact h
  | cons c rest ih => exact ih (s.after c) (after_invariant s c h)

theorem NewFromFS_ok (contentFS : EmbedFS) (subPath : String) (s : SPAServer)
    (h : NewFromFS contentFS subPath = .ok s) :
    s.useFS = true ∧ s.basePath = "/" ∧ s.entryPath = "index.html" ∧
    Sub contentFS subPath = .ok s.fs := by
  unfold NewFromFS at h
  cases hs : Sub contentFS subPath with
  | error e => simp [hs] at h
  | ok f =>
    simp [hs] at h
    subst h
    simp

/-- C10: in every handler obtained from `NewFromDir` or from a successful
`NewFromFS` by any sequence of `WithBasePath`, `WithEntryFile` and request
handling calls, with arbitrary string arguments, basePath starts with `/` and
ends with `/`; and handling a request leaves basePath as it was. -/
theorem C10_base_path_invariant (calls : List Call) :
    (∀ dirPath,
      HasPrefix (calls.foldl SPAServer.after (NewFromDir dirPath)).basePath "/" = true ∧
      HasSuffix (calls.foldl SPAServer.after (NewFromDir dirPath)).basePath "/" = true) ∧
    (∀ contentFS subPath s0, NewFromFS contentFS subPath = .ok s0 →
      HasPrefix (calls.foldl SPAServer.after s0).basePath "/" = true ∧
      HasSuffix (calls.foldl SPAServer.after s0).basePath "/" = true) ∧
    (∀ (s : SPAServer) host w r, (s.after (Call.serve host w r)).basePath = s.basePath) := by
  refine ⟨?_, ?_, ?_⟩
  · intro dirPath
    exact foldl_after_invariant calls _
      ⟨(by decide : HasPrefix "/" "/" = true), (by decide : HasSuffix "/" "/" = true)⟩
  · intro contentFS subPath s0 h0
    obtain ⟨_, hb, _, _⟩ := NewFromFS_ok contentFS subPath s0 h0
    refine foldl_after_invariant calls _ ?_
    rw [hb]
    exact ⟨by decide, by decide⟩
  · intro s host w r
    rfl

/-- C10 for the handler `NewFromFS exampleTree "."` after
`WithBasePath("")`, a request, `WithEntryFile("")` and `WithBasePath("app")`. -/
theorem C10_base_path_invariant_witness :
    NewFromFS exampleTree "." = .ok exampleEmbedded ∧
    HasSuffix (([Call.withBasePath "", Call.serve (hostOf []) ResponseWriter.fresh (GET "/"),
      Call.withEntryFile "", Call.withBasePath "app"].foldl SPAServer.after
        exampleEmbedded).basePath) "/" = true :=
  ⟨rfl,
   ((C10_base_path_invariant [Call.withBasePath "",
      Call.serve (hostOf []) ResponseWriter.fresh (GET "/"),
      Call.withEntryFile "", Call.withBasePath "app"]).2.1
        exampleTree "." exampleEmbedded rfl).2⟩

/-! ### The handler, step by step -/

theorem Handler_entry (host : Host) (s : SPAServer) (w : ResponseWriter) (r : Request)
    (hin : HasPrefix r.url.path s.basePath = true)
    (hrel : s.relativePath r = "" ∨ s.fileExists host (s.relativePath r) = false) :
    s.Handler host w r = s.serveEntry host w r := by
  unfold SPAServer.relativePath at hrel
  unfold SPAServer.Handler
  rcases hrel with h | h
  · simp [hin, h]
  · simp [hin, h]

theorem Handler_file (host : Host) (s : SPAServer) (w : ResponseWriter) (r : Request)
    (hin : HasPrefix r.url.path s.basePath = true)
    (hne : s.relativePath r ≠ "")
    (hex : s.fileExists host (s.relativePath r) = true) :
    s.Handler host w r =
      s.serveFile host
        (if HasSuffix (s.relativePath r) ".js" then
          w.SetHeader "Content-Type" "application/javascript" else w)
        r (s.relativePath r) := by
  unfold SPAServer.relativePath at hne hex ⊢
  unfold SPAServer.Handler
  simp [hin, hne, hex]

/-! ### C8 -/

/-- C8 as stated fails: `missing` names nothing in the tree, yet `NewFromFS`
returns a handler and no error. -/
theorem C8_missing_subdirectory_accepted :
    exampleTree.lookup "missing" = none ∧
    NewFromFS exampleTree "missing" =
      .ok { fs := FS.sub exampleTree "missing", dirPath := "", useFS := true,
            basePath := "/", entryPath := "index.html" } :=
  ⟨by decide, rfl⟩

/-- C8 (amended): `NewFromFS` returns an error and no handler exactly when
the sub-directory name is not a valid slash-separated path (`fs.ValidPath`);
for every valid name, whether or not it names an existing directory, and in
particular for every existing directory, it returns an embedded-tree handler
with basePath `/` and entryPath `index.html`. -/
theorem C8_NewFromFS_fails_iff_invalid (contentFS : EmbedFS) (subPath : String) :
    (ValidPath subPath = false →
      NewFromFS contentFS subPath = .error ⟨"sub", subPath, ErrKind.invalid⟩) ∧
    (ValidPath subPath = true →
      ∃ s, NewFromFS contentFS subPath = .ok s ∧ s.useFS = true ∧
        s.basePath = "/" ∧ s.entryPath = "index.html" ∧
        s.fs = if subPath = "." then FS.embed contentFS else FS.sub contentFS subPath) ∧
    (contentFS.lookup subPath = some Node.dir →
      ∃ s, NewFromFS contentFS subPath = .ok s ∧ s.basePath = "/" ∧
        s.entryPath = "index.html") := by
  have hvalid : ValidPath subPath = true →
      ∃ s, NewFromFS contentFS subPath = .ok s ∧ s.useFS = true ∧
        s.basePath = "/" ∧ s.entryPath = "index.html" ∧
        s.fs = if subPath = "." then FS.embed contentFS else FS.sub contentFS subPath := by
    intro hv
    refine ⟨{ fs := if subPath = "." then FS.embed contentFS else FS.sub contentFS subPath,
              dirPath := "", useFS := true, basePath := "/", entryPath := "index.html" },
      ?_, rfl, rfl, rfl, rfl⟩
    have hdot : ValidPath "." = true := by decide
    by_cases hd : subPath = "."
    · simp [NewFromFS, Sub, hd, hdot]
    · simp [NewFromFS, Sub, hv, hd]
  refine ⟨?_, hvalid, ?_⟩
  · intro hv
    simp [NewFromFS, Sub, hv]
  · intro hl
    have hv : ValidPath subPath = true := by
      by_contra hc
      simp [EmbedFS.lookup, hc] at hl
    obtain ⟨s, h1, _, h2, h3, _⟩ := hvalid hv
    exact ⟨s, h1, h2, h3⟩

/-- C8 (amended) at the invalid name `../up`, the valid name `missing` and
the existing root `.`. -/
theorem C8_NewFromFS_fails_iff_invalid_witness :
    ValidPath "../up" = false ∧
    NewFromFS exampleTree "../up" = .error ⟨"sub", "../up", ErrKind.invalid⟩ ∧
    ValidPath "missing" = true ∧
    (∃ s, NewFromFS exampleTree "missing" = .ok s ∧ s.useFS = true ∧
      s.basePath = "/" ∧ s.entryPath = "index.html" ∧
      s.fs = if ("missing" : String) = "." then FS.embed exampleTree
        else FS.sub exampleTree "missing") ∧
    exampleTree.lookup "." = some Node.dir ∧
    (∃ s, NewFromFS exampleTree "." = .ok s ∧ s.basePath = "/" ∧
      s.entryPath = "index.html") :=
  ⟨by decide, (C8_NewFromFS_fails_iff_invalid exampleTree "../up").1 (by decide),
   by decide, (C8_NewFromFS_fails_iff_invalid exampleTree "missing").2.1 (by decide),
   by decide, (C8_NewFromFS_fails_iff_invalid exampleTree ".").2.2 (by decide)⟩

/-! ### C6 -/

theorem serveEntry_read_error (host : Host) (s : SPAServer) (w : ResponseWriter)
    (r : Request) (e : PathError) (hfs : s.useFS = true)
    (hread : ReadFile s.fs s.entryPath = .error e) :
    s.serveEntry host w r =
      Error (w.SetHeader "Content-Type" "text/html") "Internal Server Error" 500 := by
  simp [SPAServer.serveEntry, hfs, hread]

theorem colon_mem_PathError_text (e : PathError) : ':' ∈ e.Error.data := by
  simp [PathError.Error]

/-- C6 as stated fails at the entry path `Error`: the tree has no such file,
the request `/` is answered with status 500 and the fixed line
`Internal Server Error`, and that line contains the entry path. -/
theorem C6_entry_path_occurs_in_fixed_line :
    ReadFile (exampleEmbedded.WithEntryFile "Error").fs
        (exampleEmbedded.WithEntryFile "Error").entryPath =
      .error ⟨"open", "Error", ErrKind.notExist⟩ ∧
    (exampleEmbedded.WithEntryFile "Error").relativePath (GET "/") = "" ∧
    ((exampleEmbedded.WithEntryFile "Error").Handler (hostOf []) ResponseWriter.fresh
      (GET "/")).status = some 500 ∧
    ((exampleEmbedded.WithEntryFile "Error").Handler (hostOf []) ResponseWriter.fresh
      (GET "/")).body = "Internal Server Error\n" ∧
    (exampleEmbedded.WithEntryFile "Error").entryPath.data <:+:
      ((exampleEmbedded.WithEntryFile "Error").Handler (hostOf []) ResponseWriter.fresh
        (GET "/")).body.data :=
  ⟨rfl, by decide, by decide, by decide,
   ⟨"Internal Server ".data, "\n".data, by decide⟩⟩

/-- C6 (amended): when an embedded-tree handler reaches the entry-document
step (empty relative path, or a relative path that does not exist) and
reading the entry document fails, the status is 500 and the body is the
fixed line `Internal Server Error`. The whole response is the same for any
two failing handlers, entry paths, requests and read errors; the text of the
error never occurs in the body, and the entry path occurs in it exactly when
the entry path is a fragment of the fixed line itself. -/
theorem C6_entry_read_failure_generic_500 (host host' : Host) (s s' : SPAServer)
    (r r' : Request) (e e' : PathError)
    (hfs : s.useFS = true) (hfs' : s'.useFS = true)
    (hin : HasPrefix r.url.path s.basePath = true)
    (hin' : HasPrefix r'.url.path s'.basePath = true)
    (hrel : s.relativePath r = "" ∨ s.fileExists host (s.relativePath r) = false)
    (hrel' : s'.relativePath r' = "" ∨ s'.fileExists host' (s'.relativePath r') = false)
    (hread : ReadFile s.fs s.entryPath = .error e)
    (hread' : ReadFile s'.fs s'.entryPath = .error e') :
    (s.Handler host ResponseWriter.fresh r).status = some 500 ∧
    (s.Handler host ResponseWriter.fresh r).body = "Internal Server Error\n" ∧
    s'.Handler host' ResponseWriter.fresh r' = s.Handler host ResponseWriter.fresh r ∧
    ¬ (e.Error.data <:+: (s.Handler host ResponseWriter.fresh r).body.data) ∧
    (s.entryPath.data <:+: (s.Handler host ResponseWriter.fresh r).body.data ↔
      s.entryPath.data <:+: "Internal Server Error\n".data) := by
  have h1 : s.Handler host ResponseWriter.fresh r =
      Error (ResponseWriter.fresh.SetHeader "Content-Type" "text/html")
        "Internal Server Error" 500 := by
    rw [Handler_entry host s _ r hin hrel, serveEntry_read_error host s _ r e hfs hread]
  have h2 : s'.Handler host' ResponseWriter.fresh r' =
      Error (ResponseWriter.fresh.SetHeader "Content-Type" "text/html")
        "Internal Server Error" 500 := by
    rw [Handler_entry host' s' _ r' hin' hrel',
      serveEntry_read_error host' s' _ r' e' hfs' hread']
  have hb : (s.Handler host ResponseWriter.fresh r).body = "Internal Server Error\n" := by
    rw [h1]
    decide
  refine ⟨?_, hb, ?_, ?_, ?_⟩
  · rw [h1]
    decide
  · rw [h1, h2]
  · rw [hb]
    intro hocc
    have hmem := hocc.subset (colon_mem_PathError_text e)
    revert hmem
    decide
  · rw [hb]

/-- C6 (amended) for an embedded tree without `index.html`, at the requests
`/` and `/unknown/route`. -/
theorem C6_entry_read_failure_generic_500_witness :
    ReadFile (FS.embed ⟨[("bundle.js", "js();")]⟩) "index.html" =
      .error ⟨"open", "index.html", ErrKind.notExist⟩ ∧
    ((⟨FS.embed ⟨[("bundle.js", "js();")]⟩, "", true, "/", "index.html"⟩ :
        SPAServer).Handler (hostOf []) ResponseWriter.fresh (GET "/")).status = some 500 :=
  ⟨rfl,
   (C6_entry_read_failure_generic_500 (hostOf []) (hostOf [])
      ⟨FS.embed ⟨[("bundle.js", "js();")]⟩, "", true, "/", "index.html"⟩
      ⟨FS.embed ⟨[("bundle.js", "js();")]⟩, "", true, "/", "index.html"⟩
      (GET "/") (GET "/unknown/route")
      ⟨"open", "index.html", ErrKind.notExist⟩ ⟨"open", "index.html", ErrKind.notExist⟩
      rfl rfl (by decide) (by decide) (Or.inl (by decide)) (Or.inr (by decide))
      rfl rfl).1⟩

/-! ### Serving the entry document -/

theorem serveEntry_embedded_ok (host : Host) (s : SPAServer) (r : Request)
    (content : String) (hfs : s.useFS = true)
    (hread : ReadFile s.fs s.entryPath = .ok content) :
    s.serveEntry host ResponseWriter.fresh r =
      { header := [("Content-Type", "text/html")], status := some 200, body := content } := by
  simp [SPAServer.serveEntry, hfs, hread, ResponseWriter.Write, ResponseWriter.WriteHeader,
    ResponseWriter.SetHeader, ResponseWriter.fresh, Header.Set, Header.Del]

theorem serveEntry_directory (host : Host) (s : SPAServer) (w : ResponseWriter)
    (r : Request) (hdir : s.useFS = false)
    (hdd : containsDotDot r.url.path = false)
    (hidx : HasSuffix r.url.path "/index.html" = false) :
    s.serveEntry host w r =
      match s.openEntry host with
      | .error e =>
        Error (w.SetHeader "Content-Type" "text/html") (toHTTPError e).1 (toHTTPError e).2
      | .ok (Node.file data) =>
        serveContent host (w.SetHeader "Content-Type" "text/html") r
          (Base (Split (Join s.dirPath s.entryPath)).2) data
      | .ok Node.dir =>
        serveFileFS host (DirOpen host (Split (Join s.dirPath s.entryPath)).1)
          (w.SetHeader "Content-Type" "text/html") r
          (Split (Join s.dirPath s.entryPath)).2 false := by
  unfold SPAServer.openEntry
  cases hopen : DirOpen host (Split (Join s.dirPath s.entryPath)).1
      (Split (Join s.dirPath s.entryPath)).2 with
  | error e => simp [SPAServer.serveEntry, hdir, ServeFile, hdd, serveFileFS, hidx, hopen]
  | ok d =>
    cases d with
    | file data =>
      simp [SPAServer.serveEntry, hdir, ServeFile, hdd, serveFileFS, hidx, hopen]
    | dir => simp [SPAServer.serveEntry, hdir, ServeFile, hdd, hopen]

theorem serveEntry_directory_ok (host : Host) (s : SPAServer) (r : Request)
    (content : String) (hdir : s.useFS = false)
    (hopen : s.openEntry host = .ok (Node.file content))
    (hdd : containsDotDot r.url.path = false)
    (hidx : HasSuffix r.url.path "/index.html" = false)
    (hcond : r.conditional = false) (hhead : r.method ≠ "HEAD") :
    s.serveEntry host ResponseWriter.fresh r =
      { header := [("Content-Type", "text/html")], status := some 200, body := content } := by
  rw [serveEntry_directory host s _ r hdir hdd hidx, hopen]
  simp [serveContent, hcond, hhead, ResponseWriter.Write, ResponseWriter.WriteHeader,
    ResponseWriter.SetHeader, ResponseWriter.fresh, Header.Set, Header.Del,
    ResponseWriter.contentType, Header.Get, List.lookup]

/-! ### C7 -/

/-- C7 fails on the code: with `index.html` deleted from the directory
`/srv/www`, the request `/` triggers the fallback of the directory-backed
handler and is answered by `http.ServeFile` with status 404 and the body
`404 page not found`, not with status 500. An embedded-tree handler whose
entry document cannot be read answers the same request with status 500 and
the body `Internal Server Error`. -/
theorem C7_directory_missing_entry_is_404_not_500 :
    (NewFromDir "/srv/www").openEntry (hostOf exampleDiskNoEntry) =
      .error ErrKind.notExist ∧
    HasPrefix (GET "/").url.path (NewFromDir "/srv/www").basePath = true ∧
    (NewFromDir "/srv/www").relativePath (GET "/") = "" ∧
    ((NewFromDir "/srv/www").Handler (hostOf exampleDiskNoEntry) ResponseWriter.fresh
      (GET "/")).status = some 404 ∧
    ((NewFromDir "/srv/www").Handler (hostOf exampleDiskNoEntry) ResponseWriter.fresh
      (GET "/")).status ≠ some 500 ∧
    ((NewFromDir "/srv/www").Handler (hostOf exampleDiskNoEntry) ResponseWriter.fresh
      (GET "/")).body = "404 page not found\n" ∧
    ReadFile (FS.embed ⟨[("bundle.js", "js();")]⟩) "index.html" =
      .error ⟨"open", "index.html", ErrKind.notExist⟩ ∧
    ((⟨FS.embed ⟨[("bundle.js", "js();")]⟩, "", true, "/", "index.html"⟩ :
        SPAServer).Handler (hostOf []) ResponseWriter.fresh (GET "/")).status =
      some 500 ∧
    ((⟨FS.embed ⟨[("bundle.js", "js();")]⟩, "", true, "/", "index.html"⟩ :
        SPAServer).Handler (hostOf []) ResponseWriter.fresh (GET "/")).body =
      "Internal Server Error\n" := by
  decide

/-! ### C2 -/

/-- C2 as stated fails for a directory-backed handler: `index.html` is
readable and `deep/index.html` does not exist, yet the request
`/deep/index.html` is answered by `http.ServeFile` with a 301 redirect and
an empty body instead of the entry document. -/
theorem C2_directory_fallback_redirects :
    (NewFromDir "/srv/www").openEntry (hostOf exampleDisk) = .ok (Node.file "<html>") ∧
    HasPrefix (GET "/deep/index.html").url.path (NewFromDir "/srv/www").basePath = true ∧
    (NewFromDir "/srv/www").relativePath (GET "/deep/index.html") = "deep/index.html" ∧
    (NewFromDir "/srv/www").fileExists (hostOf exampleDisk) "deep/index.html" = false ∧
    (NewFromDir "/srv/www").Handler (hostOf exampleDisk) ResponseWriter.fresh
        (GET "/deep/index.html") =
      { header := [("Location", "./"), ("Content-Type", "text/html")],
        status := some 301, body := "" } ∧
    ((NewFromDir "/srv/www").Handler (hostOf exampleDisk) ResponseWriter.fresh
        (GET "/deep/index.html")).body ≠ "<html>" := by
  decide

/-- C2 (amended): for a request under the base path whose relative path is
non-empty and does not exist in the asset source, the response is not a 404
but status 200, content type `text/html` and the bytes of the entry document,
(a) for every embedded-tree handler whose entry document is readable, and
(b) for every directory-backed handler whose entry document is readable,
provided the request path has no `..` element and does not end in
`/index.html`, and the request is not a HEAD request and carries no
precondition or range header. -/
theorem C2_missing_asset_falls_back_to_entry (host : Host) (s : SPAServer)
    (r : Request) (content : String)
    (hin : HasPrefix r.url.path s.basePath = true)
    (hne : s.relativePath r ≠ "")
    (hex : s.fileExists host (s.relativePath r) = false) :
    (s.useFS = true → ReadFile s.fs s.entryPath = .ok content →
      s.Handler host ResponseWriter.fresh r =
        { header := [("Content-Type", "text/html")], status := some 200,
          body := content }) ∧
    (s.useFS = false → s.openEntry host = .ok (Node.file content) →
      containsDotDot r.url.path = false → HasSuffix r.url.path "/index.html" = false →
      r.conditional = false → r.method ≠ "HEAD" →
      s.Handler host ResponseWriter.fresh r =
        { header := [("Content-Type", "text/html")], status := some 200,
          body := content }) := by
  have _ := hne
  rw [Handler_entry host s _ r hin (Or.inr hex)]
  exact ⟨fun hfs hread => serveEntry_embedded_ok host s r content hfs hread,
    fun hdir hopen hdd hidx hcond hhead =>
      serveEntry_directory_ok host s r content hdir hopen hdd hidx hcond hhead⟩

/-- C2 (amended) at mount `/` with request `/unknown/route` on the embedded
tree, at mount `/app/` with request `/app/missing` on the embedded tree, and
at mount `/` with request `/unknown/route` on the directory. -/
theorem C2_missing_asset_falls_back_to_entry_witness :
    exampleEmbedded.Handler (hostOf []) ResponseWriter.fresh (GET "/unknown/route") =
      { header := [("Content-Type", "text/html")], status := some 200,
        body := "<html>" } ∧
    (exampleEmbedded.WithBasePath "/app/").Handler (hostOf []) ResponseWriter.fresh
        (GET "/app/missing") =
      { header := [("Content-Type", "text/html")], status := some 200,
        body := "<html>" } ∧
    (NewFromDir "/srv/www").Handler (hostOf exampleDisk) ResponseWriter.fresh
        (GET "/unknown/route") =
      { header := [("Content-Type", "text/html")], status := some 200,
        body := "<html>" } :=
  ⟨(C2_missing_asset_falls_back_to_entry (hostOf []) exampleEmbedded
      (GET "/unknown/route") "<html>" (by decide) (by decide) (by decide)).1 rfl rfl,
   (C2_missing_asset_falls_back_to_entry (hostOf [])
      (exampleEmbedded.WithBasePath "/app/") (GET "/app/missing") "<html>"
      (by decide) (by decide) (by decide)).1 rfl rfl,
   (C2_missing_asset_falls_back_to_entry (hostOf exampleDisk) (NewFromDir "/srv/www")
      (GET "/unknown/route") "<html>" (by decide) (by decide) (by decide)).2 rfl
      (by decide) (by decide) (by decide) (by decide) (by decide)⟩

/-! ### C3 -/

theorem TrimPrefix_self (b : String) : TrimPrefix b b = "" := by
  have h : HasPrefix b b = true := by simp [HasPrefix]
  simp only [TrimPrefix, h, if_true]
  apply String.ext
  simp

theorem relativePath_at_mount (s : SPAServer) (r : Request)
    (hpath : r.url.path = s.basePath ∨ r.url.path = s.basePath ++ "/") :
    HasPrefix r.url.path s.basePath = true ∧ s.relativePath r = "" := by
  rcases hpath with h | h
  · rw [SPAServer.relativePath, h, TrimPrefix_self]
    exact ⟨by simp [HasPrefix], by decide⟩
  · have hp : HasPrefix (s.basePath ++ "/") s.basePath = true := by
      simp [HasPrefix]
    have ht : TrimPrefix (s.basePath ++ "/") s.basePath = "/" := by
      simp [TrimPrefix, HasPrefix]
    rw [SPAServer.relativePath, h, ht]
    exact ⟨hp, by decide⟩

theorem not_index_of_slash (p : String) (h : HasSuffix p "/" = true) :
    HasSuffix p "/index.html" = false := by
  rw [Bool.eq_false_iff]
  intro hc
  rw [HasSuffix_eq_true_iff] at h hc
  obtain ⟨t, ht⟩ := h
  obtain ⟨u, hu⟩ := hc
  have h1 : p.data.getLast? = some '/' := by
    rw [← ht]
    simp
  have h2 : p.data.getLast? = some 'l' := by
    rw [← hu]
    simp
  rw [h1] at h2
  exact absurd h2 (by decide)

/-- C3 as stated fails for a directory-backed handler mounted at `/a/../b/`:
the entry document is readable and the request path is exactly the stored
basePath, yet `http.ServeFile` rejects the request with status 400 because
its URL path has a `..` element. -/
theorem C3_directory_mount_with_dotdot_rejected :
    ((NewFromDir "/srv/www").WithBasePath "/a/../b").basePath = "/a/../b/" ∧
    ((NewFromDir "/srv/www").WithBasePath "/a/../b").openEntry (hostOf exampleDisk) =
      .ok (Node.file "<html>") ∧
    ((NewFromDir "/srv/www").WithBasePath "/a/../b").relativePath (GET "/a/../b/") = "" ∧
    (((NewFromDir "/srv/www").WithBasePath "/a/../b").Handler (hostOf exampleDisk)
      ResponseWriter.fresh (GET "/a/../b/")).status = some 400 ∧
    (((NewFromDir "/srv/www").WithBasePath "/a/../b").Handler (hostOf exampleDisk)
      ResponseWriter.fresh (GET "/a/../b/")).body = "invalid URL path\n" := by
  decide

/-- C3 (amended): for a request whose URL path is exactly the stored
basePath, or the stored basePath followed by one more `/`, the relative path
is empty and the handler goes to the entry document without consulting the
asset source for existence. The response is then status 200, content type
`text/html` and the bytes of the entry document, (a) for every embedded-tree
handler whose entry document is readable, and (b) for every directory-backed
handler whose entry document is readable and whose basePath ends in `/`,
provided the request path has no `..` element and the request is not a HEAD
request and carries no precondition or range header. -/
theorem C3_mount_point_serves_entry (host : Host) (s : SPAServer) (r : Request)
    (content : String)
    (hpath : r.url.path = s.basePath ∨ r.url.path = s.basePath ++ "/") :
    s.relativePath r = "" ∧
    (∀ w, s.Handler host w r = s.serveEntry host w r) ∧
    (s.useFS = true → ReadFile s.fs s.entryPath = .ok content →
      s.Handler host ResponseWriter.fresh r =
        { header := [("Content-Type", "text/html")], status := some 200,
          body := content }) ∧
    (s.useFS = false → s.openEntry host = .ok (Node.file content) →
      HasSuffix s.basePath "/" = true → containsDotDot r.url.path = false →
      r.conditional = false → r.method ≠ "HEAD" →
      s.Handler host ResponseWriter.fresh r =
        { header := [("Content-Type", "text/html")], status := some 200,
          body := content }) := by
  obtain ⟨hin, hrel⟩ := relativePath_at_mount s r hpath
  have hentry : ∀ w, s.Handler host w r = s.serveEntry host w r :=
    fun w => Handler_entry host s w r hin (Or.inl hrel)
  refine ⟨hrel, hentry, ?_, ?_⟩
  · intro hfs hread
    rw [hentry]
    exact serveEntry_embedded_ok host s r content hfs hread
  · intro hdir hopen hslash hdd hcond hhead
    rw [hentry]
    have hidx : HasSuffix r.url.path "/index.html" = false := by
      apply not_index_of_slash
      rcases hpath with h | h
      · rw [h]
        exact hslash
      · rw [h]
        exact HasSuffix_append_slash _
    exact serveEntry_directory_ok host s r content hdir hopen hdd hidx hcond hhead

/-- C3 (amended) at mount `/app/`: the request `/app/` on the embedded tree
and the request `/app//` on the directory. -/
theorem C3_mount_point_serves_entry_witness :
    (exampleEmbedded.WithBasePath "app").Handler (hostOf []) ResponseWriter.fresh
        (GET "/app/") =
      { header := [("Content-Type", "text/html")], status := some 200,
        body := "<html>" } ∧
    ((NewFromDir "/srv/www").WithBasePath "app").Handler (hostOf exampleDisk)
        ResponseWriter.fresh (GET "/app//") =
      { header := [("Content-Type", "text/html")], status := some 200,
        body := "<html>" } :=
  ⟨(C3_mount_point_serves_entry (hostOf []) (exampleEmbedded.WithBasePath "app")
      (GET "/app/") "<html>" (Or.inl (by decide))).2.2.1 rfl rfl,
   (C3_mount_point_serves_entry (hostOf exampleDisk)
      ((NewFromDir "/srv/www").WithBasePath "app") (GET "/app//") "<html>"
      (Or.inr (by decide))).2.2.2 rfl (by decide) (by decide) (by decide) (by decide)
      (by decide)⟩

/-! ### Valid paths, `Clean` and the file server -/

theorem foldl_cleanStep_plain (rooted : Bool) (elems stack : List (List Char))
    (h : ∀ e ∈ elems, e ≠ [] ∧ e ≠ ['.'] ∧ e ≠ ['.', '.']) :
    elems.foldl (cleanStep rooted) stack = elems.reverse ++ stack := by
  induction elems generalizing stack with
  | nil => simp
  | cons e rest ih =>
    have he := h e (List.mem_cons_self e rest)
    have hstep : cleanStep rooted stack e = e :: stack := by
      simp [cleanStep, he.1, he.2.1, he.2.2]
    rw [List.foldl_cons, hstep, ih (e :: stack) (fun x hx => h x (List.mem_cons_of_mem e hx))]
    simp

theorem ValidPath_elems (R : String) (hv : ValidPath R = true) (hdot : R ≠ ".") :
    ∀ e ∈ R.data.splitOn '/', e ≠ [] ∧ e ≠ ['.'] ∧ e ≠ ['.', '.'] := by
  intro e he
  have h : (R.data.splitOn '/').all
      (fun e => !(e == [] || e == ['.'] || e == ['.', '.'])) = true := by
    simpa [ValidPath, hdot] using hv
  have h2 := List.all_eq_true.mp h e he
  have h3 : (¬e = [] ∧ ¬e = ['.']) ∧ ¬e = ['.', '.'] := by simpa using h2
  exact ⟨h3.1.1, h3.1.2, h3.2⟩

theorem splitOn_slash_cons (l : List Char) :
    ('/' :: l).splitOn '/' = [] :: l.splitOn '/' := by
  simp [List.splitOn]

theorem Clean_slash_valid (R : String) (hv : ValidPath R = true) (hdot : R ≠ ".") :
    Clean ("/" ++ R) = "/" ++ R := by
  have helems := ValidPath_elems R hv hdot
  have hdata : ("/" ++ R).data = '/' :: R.data := by simp
  have hroot : HasPrefix ("/" ++ R) "/" = true := HasPrefix_slash_append R
  unfold Clean
  simp only [hroot, hdata, splitOn_slash_cons, List.foldl_cons]
  have h0 : cleanStep true [] [] = [] := by simp [cleanStep]
  rw [h0, foldl_cleanStep_plain true _ [] helems]
  simp only [List.append_nil, List.reverse_reverse, if_true, List.intercalate_splitOn]
  simp
  apply String.ext
  simp

theorem splitOn_of_getLast_slash (l : List Char) (h : l.getLast? = some '/') :
    ∃ pre, pre ≠ [] ∧ l.splitOn '/' = pre ++ [[]] := by
  induction l with
  | nil => simp at h
  | cons c rest ih =>
    cases rest with
    | nil =>
      have hc : c = '/' := by simpa using h
      subst hc
      exact ⟨[[]], by simp, by decide⟩
    | cons d rest2 =>
      have hrest : (d :: rest2).getLast? = some '/' := by
        simpa [List.getLast?_cons_cons] using h
      obtain ⟨pre, hpre, hsplit⟩ := ih hrest
      have hsplit2 : List.splitOnP (fun x => x == '/') (d :: rest2) = pre ++ [[]] := hsplit
      by_cases hc : c = '/'
      · refine ⟨[] :: pre, by simp, ?_⟩
        rw [List.splitOn, List.splitOnP_cons, hsplit2]
        simp [hc]
      · cases pre with
        | nil => exact absurd rfl hpre
        | cons p0 ps =>
          refine ⟨(c :: p0) :: ps, by simp, ?_⟩
          rw [List.splitOn, List.splitOnP_cons, hsplit2]
          simp [hc, List.modifyHead]

theorem ValidPath_data_ne_nil (R : String) (hv : ValidPath R = true) : R.data ≠ [] := by
  intro h0
  have hR : R = "" := String.ext (by simpa using h0)
  rw [hR] at hv
  exact absurd hv (by decide)

theorem endsInSlash_slash_valid (R : String) (hv : ValidPath R = true) :
    endsInSlash ("/" ++ R) = false := by
  by_cases hdot : R = "."
  · rw [hdot]
    decide
  · have hne := ValidPath_data_ne_nil R hv
    rw [Bool.eq_false_iff]
    intro hc
    have hlast : R.data.getLast? = some '/' := by
      have h1 : ('/' :: R.data).getLast? = some '/' := by
        simpa [endsInSlash] using hc
      cases hd : R.data with
      | nil => exact absurd hd hne
      | cons a t =>
        rw [hd] at h1
        simpa [List.getLast?_cons_cons] using h1
    obtain ⟨pre, _, hsplit⟩ := splitOn_of_getLast_slash R.data hlast
    have hmem : ([] : List Char) ∈ R.data.splitOn '/' := by
      rw [hsplit]
      simp
    exact (ValidPath_elems R hv hdot [] hmem).1 rfl

theorem ValidPath_of_Stat (fsys : FS) (R : String) (d : Node)
    (h : Stat fsys R = .ok d) : ValidPath R = true := by
  by_contra hc
  have hv : ValidPath R = false := by simpa using hc
  cases fsys with
  | embed f => simp [Stat, FS.Open, EmbedFS.Open, EmbedFS.lookup, hv] at h
  | sub f dir => simp [Stat, FS.Open, fullName, hv] at h

theorem ioFSOpen_Clean_valid (fsys : FS) (R : String) (d : Node)
    (h : Stat fsys R = .ok d) : ioFSOpen fsys (Clean ("/" ++ R)) = .ok d := by
  have hv := ValidPath_of_Stat fsys R d h
  have hopen : fsys.Open R = .ok d := h
  by_cases hdot : R = "."
  · have hc : Clean ("/" ++ R) = "/" := by
      rw [hdot]
      decide
    rw [hdot] at hopen
    simp [ioFSOpen, hc, hopen]
  · have hne := ValidPath_data_ne_nil R hv
    have hc := Clean_slash_valid R hv hdot
    have hneq : "/" ++ R ≠ "/" := by
      intro heq
      have := congrArg String.data heq
      simp at this
      exact hne this
    have ht : TrimPrefix ("/" ++ R) "/" = R := by
      simp [TrimPrefix, HasPrefix]
    simp [ioFSOpen, hc, hneq, ht, hopen]

theorem FileServer_valid (host : Host) (fsys : FS) (w : ResponseWriter) (r : Request)
    (R : String) (d : Node) (h : Stat fsys R = .ok d)
    (hidx : HasSuffix ("/" ++ R) "/index.html" = false) :
    FileServer host fsys w { r with url := { r.url with path := "/" ++ R } } =
      match d with
      | Node.file data =>
        serveContent host w { r with url := { r.url with path := "/" ++ R } }
          (Base (Clean ("/" ++ R))) data
      | Node.dir =>
        localRedirect w { r with url := { r.url with path := "/" ++ R } }
          (Base ("/" ++ R) ++ "/") := by
  have hv := ValidPath_of_Stat fsys R d h
  have hopen := ioFSOpen_Clean_valid fsys R d h
  have hslash := endsInSlash_slash_valid R hv
  have hroot := HasPrefix_slash_append R
  cases d with
  | file data =>
    simp [FileServer, hroot, serveFileFS, hidx, hopen, hslash, Node.IsDir]
  | dir =>
    simp [FileServer, hroot, serveFileFS, hidx, hopen, hslash, Node.IsDir]

theorem serveFile_embedded (host : Host) (s : SPAServer) (w : ResponseWriter)
    (r : Request) (R : String) (hfs : s.useFS = true) :
    s.serveFile host w r R =
      FileServer host s.fs w { r with url := { r.url with path := "/" ++ R } } := by
  simp [SPAServer.serveFile, hfs, cloneRequest]

theorem fileExists_of_Stat (host : Host) (s : SPAServer) (R : String) (d : Node)
    (hfs : s.useFS = true) (h : Stat s.fs R = .ok d) : s.fileExists host R = true := by
  simp [SPAServer.fileExists, hfs, h]

theorem Stat_of_fileExists (host : Host) (s : SPAServer) (R : String)
    (hfs : s.useFS = true) (h : s.fileExists host R = true) :
    ∃ d, Stat s.fs R = .ok d := by
  cases hs : Stat s.fs R with
  | error e => simp [SPAServer.fileExists, hfs, hs] at h
  | ok d => exact ⟨d, rfl⟩

theorem not_index_of_js (R : String) (h : HasSuffix R ".js" = true) :
    HasSuffix ("/" ++ R) "/index.html" = false := by
  rw [Bool.eq_false_iff]
  intro hc
  rw [HasSuffix_eq_true_iff] at h hc
  obtain ⟨t, ht⟩ := h
  obtain ⟨u, hu⟩ := hc
  have h1 : ("/" ++ R).data.getLast? = some 's' := by
    have hs : ("/" ++ R).data = ('/' :: t ++ ['.', 'j']) ++ ['s'] := by
      rw [String.data_append, ← ht]
      simp
    rw [hs, List.getLast?_concat]
  have h2 : ("/" ++ R).data.getLast? = some 'l' := by
    rw [← hu]
    simp
  rw [h1] at h2
  exact absurd h2 (by decide)

/-! ### C4 -/

/-- C4 as stated fails for an embedded-tree handler: `index.html` exists in
the tree, yet the request `/index.html` is answered by the file server with
a 301 redirect to `./` and an empty body, not with the bytes of the file. -/
theorem C4_embedded_index_html_redirects :
    HasPrefix (GET "/index.html").url.path exampleEmbedded.basePath = true ∧
    exampleEmbedded.relativePath (GET "/index.html") = "index.html" ∧
    Stat exampleEmbedded.fs "index.html" = .ok (Node.file "<html>") ∧
    exampleEmbedded.fileExists (hostOf []) "index.html" = true ∧
    exampleEmbedded.Handler (hostOf []) ResponseWriter.fresh (GET "/index.html") =
      { header := [("Location", "./")], status := some 301, body := "" } ∧
    (exampleEmbedded.Handler (hostOf []) ResponseWriter.fresh (GET "/index.html")).body ≠
      "<html>" := by
  decide

/-- C4 (amended): for every embedded-tree handler and every request under
the base path whose non-empty relative path R names a regular file of the
asset source, the response has status 200 and its body equals the bytes
stored at R, provided `/`+R does not end in `/index.html` and the request is
not a HEAD request and carries no precondition or range header. -/
theorem C4_embedded_file_is_served (host : Host) (s : SPAServer) (r : Request)
    (data : String) (hfs : s.useFS = true)
    (hin : HasPrefix r.url.path s.basePath = true)
    (hne : s.relativePath r ≠ "")
    (hstat : Stat s.fs (s.relativePath r) = .ok (Node.file data))
    (hidx : HasSuffix ("/" ++ s.relativePath r) "/index.html" = false)
    (hcond : r.conditional = false) (hhead : r.method ≠ "HEAD") :
    s.fileExists host (s.relativePath r) = true ∧
    (s.Handler host ResponseWriter.fresh r).status = some 200 ∧
    (s.Handler host ResponseWriter.fresh r).body = data := by
  have hex := fileExists_of_Stat host s _ _ hfs hstat
  have hcond2 : Request.conditional
      { r with url := { r.url with path := "/" ++ s.relativePath r } } = false := hcond
  rw [Handler_file host s _ r hin hne hex, serveFile_embedded host s _ r _ hfs,
    FileServer_valid host s.fs _ r _ _ hstat hidx]
  refine ⟨hex, ?_, ?_⟩
  · by_cases hjs : HasSuffix (s.relativePath r) ".js" = true <;>
      simp [serveContent, hcond2, hhead, hjs, ResponseWriter.Write,
        ResponseWriter.WriteHeader, ResponseWriter.SetHeader, ResponseWriter.fresh,
        ResponseWriter.contentType, Header.Get, Header.Set, Header.Del, List.lookup]
  · by_cases hjs : HasSuffix (s.relativePath r) ".js" = true <;>
      simp [serveContent, hcond2, hhead, hjs, ResponseWriter.Write,
        ResponseWriter.WriteHeader, ResponseWriter.SetHeader, ResponseWriter.fresh,
        ResponseWriter.contentType, Header.Get, Header.Set, Header.Del, List.lookup]

/-- C4 (amended) at mount `/app/`, request `/app/bundle.js` on the embedded
tree. -/
theorem C4_embedded_file_is_served_witness :
    Stat (exampleEmbedded.WithBasePath "app").fs
        ((exampleEmbedded.WithBasePath "app").relativePath (GET "/app/bundle.js")) =
      .ok (Node.file "js();") ∧
    ((exampleEmbedded.WithBasePath "app").Handler (hostOf []) ResponseWriter.fresh
      (GET "/app/bundle.js")).body = "js();" :=
  ⟨by decide,
   (C4_embedded_file_is_served (hostOf []) (exampleEmbedded.WithBasePath "app")
      (GET "/app/bundle.js") "js();" rfl (by decide) (by decide) (by decide)
      (by decide) (by decide) (by decide)).2.2⟩

/-! ### C5 -/

/-- C5 as stated fails for a request with a precondition: on the embedded
tree `bundle.js` exists and ends in `.js`, and for `GET /bundle.js` with the
header `If-None-Match: *` the file server answers 304 through
`http.writeNotModified`, which deletes the Content-Type the handler had
set. -/
theorem C5_not_modified_drops_content_type :
    HasPrefix exampleConditionalGet.url.path exampleEmbedded.basePath = true ∧
    exampleEmbedded.relativePath exampleConditionalGet = "bundle.js" ∧
    exampleEmbedded.fileExists exampleHostNotModified "bundle.js" = true ∧
    HasSuffix "bundle.js" ".js" = true ∧
    exampleConditionalGet.conditional = true ∧
    exampleEmbedded.Handler exampleHostNotModified ResponseWriter.fresh
        exampleConditionalGet =
      { header := [], status := some 304, body := "" } ∧
    (exampleEmbedded.Handler exampleHostNotModified ResponseWriter.fresh
        exampleConditionalGet).contentType ≠ some "application/javascript" := by
  decide

/-- C5 (amended): for a request under the base path whose relative path R
exists in the asset source and ends in `.js`, the handler sets Content-Type
to exactly `application/javascript` on the response writer and only then
delegates to `serveFile`; the response of a directory-backed handler carries
that header, and so does the response of an embedded-tree handler when the
request has no precondition or range header (for those the file server
composes the headers of its conditional reply itself). For an existing R
that does not end in `.js` the handler hands the response writer to
`serveFile` as it received it, setting no Content-Type. -/
theorem C5_javascript_content_type (host : Host) (s : SPAServer) (r : Request)
    (hin : HasPrefix r.url.path s.basePath = true)
    (hne : s.relativePath r ≠ "")
    (hex : s.fileExists host (s.relativePath r) = true) :
    (HasSuffix (s.relativePath r) ".js" = true →
      (∀ w, s.Handler host w r =
        s.serveFile host (w.SetHeader "Content-Type" "application/javascript") r
          (s.relativePath r)) ∧
      (∀ w : ResponseWriter, w.status = none →
        (w.SetHeader "Content-Type" "application/javascript").contentType =
          some "application/javascript") ∧
      (s.useFS = false →
        (s.Handler host ResponseWriter.fresh r).contentType =
          some "application/javascript") ∧
      (s.useFS = true → r.conditional = false →
        (s.Handler host ResponseWriter.fresh r).contentType =
          some "application/javascript")) ∧
    (HasSuffix (s.relativePath r) ".js" = false →
      ∀ w, s.Handler host w r = s.serveFile host w r (s.relativePath r)) := by
  refine ⟨?_, ?_⟩
  · intro hjs
    have hH : ∀ w, s.Handler host w r =
        s.serveFile host (w.SetHeader "Content-Type" "application/javascript") r
          (s.relativePath r) := by
      intro w
      rw [Handler_file host s w r hin hne hex]
      simp [hjs]
    refine ⟨hH, ?_, ?_, ?_⟩
    · intro w hw
      simp [ResponseWriter.SetHeader, hw, ResponseWriter.contentType, Header.Get,
        Header.Set, List.lookup]
    · intro hdir
      rw [hH]
      simp [SPAServer.serveFile, hdir, ResponseWriter.SetHeader, ResponseWriter.fresh,
        ResponseWriter.contentType, Header.Get, Header.Set, Header.Del, List.lookup]
    · intro hfs hcond
      obtain ⟨d, hd⟩ := Stat_of_fileExists host s _ hfs hex
      have hcond2 : Request.conditional
          { r with url := { r.url with path := "/" ++ s.relativePath r } } = false := hcond
      rw [hH, serveFile_embedded host s _ r _ hfs,
        FileServer_valid host s.fs _ r _ d hd (not_index_of_js _ hjs)]
      cases d with
      | file data =>
        simp only [serveContent, hcond2]
        by_cases hhead : r.method = "HEAD" <;>
          simp [hhead, ResponseWriter.Write,
            ResponseWriter.WriteHeader, ResponseWriter.SetHeader, ResponseWriter.fresh,
            ResponseWriter.contentType, Header.Get, Header.Set, Header.Del, List.lookup]
      | dir =>
        by_cases hq : r.url.rawQuery = "" <;>
          simp [localRedirect, hq, ResponseWriter.WriteHeader, ResponseWriter.SetHeader,
            ResponseWriter.fresh, ResponseWriter.contentType, Header.Get, Header.Set,
            Header.Del, List.lookup]
  · intro hjs w
    rw [Handler_file host s w r hin hne hex]
    simp [hjs]

/-- C5 (amended) at mount `/`, source `index.html` and `bundle.js`: the request
`/bundle.js` on the embedded tree and on the directory, and the request
`/index.html`, which does not end in `.js`, on the embedded tree. -/
theorem C5_javascript_content_type_witness :
    exampleEmbedded.fileExists (hostOf [])
      (exampleEmbedded.relativePath (GET "/bundle.js")) = true ∧
    HasSuffix (exampleEmbedded.relativePath (GET "/bundle.js")) ".js" = true ∧
    (exampleEmbedded.Handler (hostOf []) ResponseWriter.fresh
      (GET "/bundle.js")).contentType = some "application/javascript" ∧
    ((NewFromDir "/srv/www").Handler (hostOf exampleDisk) ResponseWriter.fresh
      (GET "/bundle.js")).contentType = some "application/javascript" ∧
    exampleEmbedded.Handler (hostOf []) ResponseWriter.fresh (GET "/index.html") =
      exampleEmbedded.serveFile (hostOf []) ResponseWriter.fresh (GET "/index.html")
        (exampleEmbedded.relativePath (GET "/index.html")) :=
  ⟨by decide, by decide,
   ((C5_javascript_content_type (hostOf []) exampleEmbedded (GET "/bundle.js")
      (by decide) (by decide) (by decide)).1 (by decide)).2.2.2 rfl (by decide),
   ((C5_javascript_content_type (hostOf exampleDisk) (NewFromDir "/srv/www")
      (GET "/bundle.js") (by decide) (by decide) (by decide)).1 (by decide)).2.2.1 rfl,
   (C5_javascript_content_type (hostOf []) exampleEmbedded (GET "/index.html")
      (by decide) (by decide) (by decide)).2 (by decide) ResponseWriter.fresh⟩

/-! ### C14 -/

/-- C14: `WithEntryFile(p)` stores entryPath exactly `p`, unchanged, leaves
the asset source, its variant and basePath as they were, and what it returns
is the receiver after the call; symmetrically `WithBasePath(p)` changes no
field but basePath and returns the receiver after the call. -/
theorem C14_builders_assign_one_field (s : SPAServer) (p : String) :
    (s.WithEntryFile p).entryPath = p ∧
    (s.WithEntryFile p).fs = s.fs ∧
    (s.WithEntryFile p).dirPath = s.dirPath ∧
    (s.WithEntryFile p).useFS = s.useFS ∧
    (s.WithEntryFile p).basePath = s.basePath ∧
    s.after (Call.withEntryFile p) = s.WithEntryFile p ∧
    (s.WithBasePath p).fs = s.fs ∧
    (s.WithBasePath p).dirPath = s.dirPath ∧
    (s.WithBasePath p).useFS = s.useFS ∧
    (s.WithBasePath p).entryPath = s.entryPath ∧
    s.after (Call.withBasePath p) = s.WithBasePath p :=
  ⟨rfl, rfl, rfl, rfl, rfl, rfl, rfl, rfl, rfl, rfl, rfl⟩

/-! ### C15 -/

theorem TrimPrefix_append (b rest : String) : TrimPrefix (b ++ rest) b = rest := by
  simp [TrimPrefix, HasPrefix]

theorem Handler_by_relativePath (host : Host) (s : SPAServer) (w : ResponseWriter)
    (r : Request) (hin : HasPrefix r.url.path s.basePath = true) :
    s.Handler host w r =
      if s.relativePath r = "" then s.serveEntry host w r
      else if s.fileExists host (s.relativePath r) = true then
        s.serveFile host
          (if HasSuffix (s.relativePath r) ".js" then
            w.SetHeader "Content-Type" "application/javascript" else w)
          r (s.relativePath r)
      else s.serveEntry host w r := by
  by_cases h0 : s.relativePath r = ""
  · rw [if_pos h0]
    exact Handler_entry host s w r hin (Or.inl h0)
  · rw [if_neg h0]
    by_cases hex : s.fileExists host (s.relativePath r) = true
    · rw [if_pos hex]
      exact Handler_file host s w r hin h0 hex
    · rw [if_neg hex]
      exact Handler_entry host s w r hin (Or.inr (by simpa using hex))

/-- C15 as stated fails: under mount `/app/` the request `/app///x` has the
relative path `/x`, which begins with `/`, and that is the path given to the
existence check; likewise `///x` under mount `/`. -/
theorem C15_second_slash_is_kept :
    HasPrefix (GET "/app///x").url.path (exampleEmbedded.WithBasePath "/app/").basePath
      = true ∧
    (exampleEmbedded.WithBasePath "/app/").relativePath (GET "/app///x") = "/x" ∧
    HasPrefix ((exampleEmbedded.WithBasePath "/app/").relativePath (GET "/app///x")) "/"
      = true ∧
    exampleEmbedded.relativePath (GET "///x") = "/x" := by
  decide

/-- C15 (amended): for a request path that starts with basePath, the
relative path the handler computes, and passes to the existence check and to
the file server, is the request path with the basePath removed and then at
most one leading `/` removed; it begins with `/` exactly when two or more
slashes follow the basePath in the request path. -/
theorem C15_relative_path_drops_one_slash (host : Host) (s : SPAServer)
    (w : ResponseWriter) (r : Request) (rest : String)
    (hpath : r.url.path = s.basePath ++ rest) :
    HasPrefix r.url.path s.basePath = true ∧
    s.relativePath r = TrimPrefix rest "/" ∧
    (HasPrefix (s.relativePath r) "/" = true ↔ HasPrefix rest "//" = true) ∧
    s.Handler host w r =
      (if s.relativePath r = "" then s.serveEntry host w r
      else if s.fileExists host (s.relativePath r) = true then
        s.serveFile host
          (if HasSuffix (s.relativePath r) ".js" then
            w.SetHeader "Content-Type" "application/javascript" else w)
          r (s.relativePath r)
      else s.serveEntry host w r) := by
  have hin : HasPrefix r.url.path s.basePath = true := by
    rw [hpath]
    simp [HasPrefix]
  have hrel : s.relativePath r = TrimPrefix rest "/" := by
    rw [SPAServer.relativePath, hpath, TrimPrefix_append]
  refine ⟨hin, hrel, ?_, Handler_by_relativePath host s w r hin⟩
  rw [hrel]
  cases hd : rest.data with
  | nil => simp [TrimPrefix, HasPrefix, hd]
  | cons c t =>
    by_cases hc : c = '/'
    · subst hc
      cases t with
      | nil => simp [TrimPrefix, HasPrefix, hd]
      | cons c2 t2 => simp [TrimPrefix, HasPrefix, hd]
    · have hc2 : ¬ '/' = c := fun h => hc h.symm
      simp [TrimPrefix, HasPrefix, hd, hc2]

/-- C15 (amended) at mount `/app/`: the request `/app//x` has the relative
path `x`. -/
theorem C15_relative_path_drops_one_slash_witness :
    (GET "/app//x").url.path = (exampleEmbedded.WithBasePath "/app/").basePath ++ "/x" ∧
    (exampleEmbedded.WithBasePath "/app/").relativePath (GET "/app//x") =
      TrimPrefix "/x" "/" ∧
    TrimPrefix "/x" "/" = "x" :=
  ⟨by decide,
   (C15_relative_path_drops_one_slash (hostOf []) (exampleEmbedded.WithBasePath "/app/")
      ResponseWriter.fresh (GET "/app//x") "/x" (by decide)).2.1,
   by decide⟩

/-! ### C16 -/

/-- C16: for a directory-backed handler and a request under the base path
whose non-empty relative path R exists on disk, the handler function returns
the response writer as it received it, except for Content-Type set to
`application/javascript` when R ends in `.js`: no status line and no body
byte is written, and the result does not depend on what opening any file
yields, so nothing is opened. On a fresh response writer the status is
unwritten and the body empty. -/
theorem C16_directory_asset_is_not_served (host : Host) (s : SPAServer)
    (w : ResponseWriter) (r : Request) (d : Node) (hdir : s.useFS = false)
    (hin : HasPrefix r.url.path s.basePath = true)
    (hne : s.relativePath r ≠ "")
    (hstat : host.Stat (Join s.dirPath (s.relativePath r)) = .ok d) :
    s.fileExists host (s.relativePath r) = true ∧
    s.Handler host w r =
      (if HasSuffix (s.relativePath r) ".js" then
        w.SetHeader "Content-Type" "application/javascript" else w) ∧
    (s.Handler host w r).status = w.status ∧
    (s.Handler host w r).body = w.body ∧
    (s.Handler host ResponseWriter.fresh r).status = none ∧
    (s.Handler host ResponseWriter.fresh r).body = "" ∧
    (s.Handler host ResponseWriter.fresh r).header =
      (if HasSuffix (s.relativePath r) ".js" then
        [("Content-Type", "application/javascript")] else []) ∧
    (∀ open2 typeOf2 reply2 list2,
      s.Handler ⟨host.Stat, open2, typeOf2, reply2, list2⟩ w r = s.Handler host w r) := by
  have hex : s.fileExists host (s.relativePath r) = true := by
    simp [SPAServer.fileExists, hdir, hstat]
  have hH : ∀ (h2 : Host) (w2 : ResponseWriter), h2.Stat = host.Stat →
      s.Handler h2 w2 r =
        (if HasSuffix (s.relativePath r) ".js" then
          w2.SetHeader "Content-Type" "application/javascript" else w2) := by
    intro h2 w2 hs
    have hex2 : s.fileExists h2 (s.relativePath r) = true := by
      simp [SPAServer.fileExists, hdir, hs, hstat]
    rw [Handler_file h2 s w2 r hin hne hex2]
    simp [SPAServer.serveFile, hdir]
  refine ⟨hex, hH host w rfl, ?_, ?_, ?_, ?_, ?_, ?_⟩
  · rw [hH host w rfl]
    by_cases hjs : HasSuffix (s.relativePath r) ".js" = true
    · by_cases hw : w.status.isSome <;> simp [hjs, ResponseWriter.SetHeader, hw]
    · simp [hjs]
  · rw [hH host w rfl]
    by_cases hjs : HasSuffix (s.relativePath r) ".js" = true
    · by_cases hw : w.status.isSome <;> simp [hjs, ResponseWriter.SetHeader, hw]
    · simp [hjs]
  · rw [hH host _ rfl]
    by_cases hjs : HasSuffix (s.relativePath r) ".js" = true <;>
      simp [hjs, ResponseWriter.SetHeader, ResponseWriter.fresh]
  · rw [hH host _ rfl]
    by_cases hjs : HasSuffix (s.relativePath r) ".js" = true <;>
      simp [hjs, ResponseWriter.SetHeader, ResponseWriter.fresh]
  · rw [hH host _ rfl]
    by_cases hjs : HasSuffix (s.relativePath r) ".js" = true <;>
      simp [hjs, ResponseWriter.SetHeader, ResponseWriter.fresh, Header.Set, Header.Del]
  · intro open2 typeOf2 reply2 list2
    rw [hH host w rfl, hH ⟨host.Stat, open2, typeOf2, reply2, list2⟩ w rfl]

/-- C16 on the directory `/srv/www`, at the request `/bundle.js`. -/
theorem C16_directory_asset_is_not_served_witness :
    (hostOf exampleDisk).Stat
        (Join (NewFromDir "/srv/www").dirPath
          ((NewFromDir "/srv/www").relativePath (GET "/bundle.js"))) =
      .ok (Node.file "js();") ∧
    (NewFromDir "/srv/www").Handler (hostOf exampleDisk) ResponseWriter.fresh
        (GET "/bundle.js") =
      { header := [("Content-Type", "application/javascript")], status := none,
        body := "" } :=
  ⟨by decide,
   (C16_directory_asset_is_not_served (hostOf exampleDisk) (NewFromDir "/srv/www")
      ResponseWriter.fresh (GET "/bundle.js") (Node.file "js();") rfl (by decide)
      (by decide) (by decide)).2.1⟩

/-! ### C17 -/

theorem no_slash_ends (p : String) (hns : '/' ∉ p.data) :
    HasPrefix p "/" = false ∧ HasSuffix p "/" = false := by
  constructor
  · rw [Bool.eq_false_iff]
    intro hc
    rw [HasPrefix_slash_iff] at hc
    obtain ⟨t, ht⟩ := hc
    exact hns (by rw [ht]; simp)
  · rw [Bool.eq_false_iff]
    intro hc
    rw [HasSuffix_slash_iff] at hc
    obtain ⟨t, ht⟩ := hc
    exact hns (by rw [ht]; simp)

theorem HasPrefix_mount_append (p x : String) :
    HasPrefix ("/" ++ p ++ x) ("/" ++ p ++ "/") = HasPrefix x "/" := by
  rw [Bool.eq_iff_iff, HasPrefix_eq_true_iff, HasPrefix_eq_true_iff]
  simp only [String.data_append]
  exact List.prefix_append_right_inj _

theorem Handler_outside (host : Host) (s : SPAServer) (w : ResponseWriter) (r : Request)
    (hout : HasPrefix r.url.path s.basePath = false) :
    s.Handler host w r = NotFound w r := by
  simp [SPAServer.Handler, hout]

/-- C17: for a non-empty `p` containing no `/`, the handlers configured with
`WithBasePath(p)` and `WithBasePath("/"+p)` store the basePath `/p/`; they
answer the request path `/p`, every request path `/p`+x where x does not
start with `/`, and in general every request path that does not begin with
`/p/`, with 404 Not Found, and the base-path guard lets through exactly the
request paths that begin with `/p/`. -/
theorem C17_mount_without_slash_is_not_found (host : Host) (s : SPAServer)
    (r : Request) (p : String) (hne : p ≠ "") (hns : '/' ∉ p.data) :
    (s.WithBasePath p).basePath = "/" ++ p ++ "/" ∧
    (s.WithBasePath ("/" ++ p)).basePath = "/" ++ p ++ "/" ∧
    (∀ s2, s2 = s.WithBasePath p ∨ s2 = s.WithBasePath ("/" ++ p) →
      (r.url.path = "/" ++ p →
        (∀ w, s2.Handler host w r = NotFound w r) ∧
        (s2.Handler host ResponseWriter.fresh r).status = some 404) ∧
      (∀ x, HasPrefix x "/" = false → r.url.path = "/" ++ p ++ x →
        (∀ w, s2.Handler host w r = NotFound w r) ∧
        (s2.Handler host ResponseWriter.fresh r).status = some 404) ∧
      (HasPrefix r.url.path ("/" ++ p ++ "/") = false →
        (∀ w, s2.Handler host w r = NotFound w r) ∧
        (s2.Handler host ResponseWriter.fresh r).status = some 404) ∧
      (HasPrefix r.url.path s2.basePath = true ↔
        HasPrefix r.url.path ("/" ++ p ++ "/") = true)) := by
  obtain ⟨hpre, hsuf⟩ := no_slash_ends p hns
  obtain ⟨h1, h2, _, _⟩ := WithBasePath_bare s p hne hpre hsuf
  refine ⟨by rw [h1], by rw [h2], ?_⟩
  intro s2 hs2
  have hb : s2.basePath = "/" ++ p ++ "/" := by
    rcases hs2 with h | h
    · rw [h, h1]
    · rw [h, h2]
  have hnf : HasPrefix r.url.path ("/" ++ p ++ "/") = false →
      (∀ w, s2.Handler host w r = NotFound w r) ∧
      (s2.Handler host ResponseWriter.fresh r).status = some 404 := by
    intro hout
    have hout2 : HasPrefix r.url.path s2.basePath = false := by rw [hb]; exact hout
    refine ⟨fun w => Handler_outside host s2 w r hout2, ?_⟩
    rw [Handler_outside host s2 _ r hout2]
    exact Error_status _ _ _ rfl
  refine ⟨?_, ?_, hnf, by rw [hb]⟩
  · intro hp
    apply hnf
    have h0 := HasPrefix_mount_append p ""
    rw [String.append_empty] at h0
    rw [hp, h0]
    decide
  · intro x hx hp
    apply hnf
    rw [hp, HasPrefix_mount_append, hx]

/-- C17 at `p = app`: the requests `/app` and `/appx` on the handler
configured with `WithBasePath("app")`. -/
theorem C17_mount_without_slash_is_not_found_witness :
    ("app" : String) ≠ "" ∧ '/' ∉ ("app" : String).data ∧
    ((exampleEmbedded.WithBasePath "app").Handler (hostOf []) ResponseWriter.fresh
      (GET "/app")).status = some 404 ∧
    ((exampleEmbedded.WithBasePath "app").Handler (hostOf []) ResponseWriter.fresh
      (GET "/appx")).status = some 404 :=
  ⟨by decide, by decide,
   (((C17_mount_without_slash_is_not_found (hostOf []) exampleEmbedded (GET "/app")
      "app" (by decide) (by decide)).2.2 _ (Or.inl rfl)).1 (by decide)).2,
   (((C17_mount_without_slash_is_not_found (hostOf []) exampleEmbedded (GET "/appx")
      "app" (by decide) (by decide)).2.2 _ (Or.inl rfl)).2.1 "x" (by decide)
      (by decide)).2⟩

/-! ### C18 -/

theorem ValidPath_false_of_bad_element (R : String) (hdot : R ≠ ".")
    (hbad : ∃ e ∈ R.data.splitOn '/', e = [] ∨ e = ['.'] ∨ e = ['.', '.']) :
    ValidPath R = false := by
  rw [Bool.eq_false_iff]
  intro hv
  obtain ⟨e, he, hcase⟩ := hbad
  obtain ⟨h1, h2, h3⟩ := ValidPath_elems R hv hdot e he
  rcases hcase with h | h | h
  · exact h1 h
  · exact h2 h
  · exact h3 h

theorem ValidPath_false_of_trailing_slash (R : String) (h : HasSuffix R "/" = true) :
    ValidPath R = false := by
  rw [HasSuffix_slash_iff] at h
  obtain ⟨t, ht⟩ := h
  have hlast : R.data.getLast? = some '/' := by
    rw [ht]
    simp
  obtain ⟨pre, _, hsplit⟩ := splitOn_of_getLast_slash R.data hlast
  have hdot : R ≠ "." := by
    intro hR
    rw [hR] at hlast
    exact absurd hlast (by decide)
  exact ValidPath_false_of_bad_element R hdot ⟨[], by rw [hsplit]; simp, Or.inl rfl⟩

theorem Stat_invalid (fsys : FS) (R : String) (hinv : ValidPath R = false) :
    Stat fsys R =
      match fsys with
      | FS.embed _ => .error ⟨"open", R, ErrKind.notExist⟩
      | FS.sub _ _ => .error ⟨"open", R, ErrKind.invalid⟩ := by
  cases fsys with
  | embed f => simp [Stat, FS.Open, EmbedFS.Open, EmbedFS.lookup, hinv]
  | sub f dir => simp [Stat, FS.Open, fullName, hinv]

/-- C18 as stated fails at the relative path `.`: it consists of a `.`
segment, yet it is a valid path, the root of the tree; the existence check
is true and the request `/.` is delegated to the file server, which answers
with a 301 redirect instead of the entry document. -/
theorem C18_dot_path_is_delegated :
    HasPrefix (GET "/.").url.path exampleEmbedded.basePath = true ∧
    exampleEmbedded.relativePath (GET "/.") = "." ∧
    ['.'] ∈ ("." : String).data.splitOn '/' ∧
    ReadFile exampleEmbedded.fs exampleEmbedded.entryPath = .ok "<html>" ∧
    exampleEmbedded.fileExists (hostOf []) "." = true ∧
    exampleEmbedded.Handler (hostOf []) ResponseWriter.fresh (GET "/.") =
      exampleEmbedded.serveFile (hostOf []) ResponseWriter.fresh (GET "/.") "." ∧
    exampleEmbedded.Handler (hostOf []) ResponseWriter.fresh (GET "/.") =
      { header := [("Location", "./")], status := some 301, body := "" } ∧
    (exampleEmbedded.Handler (hostOf []) ResponseWriter.fresh (GET "/.")).body ≠
      "<html>" := by
  decide

/-- C18 (amended): for an embedded-tree handler with a readable entry
document and a request under the base path whose relative path is not a
valid path of the tree in the sense of `fs.ValidPath` (it has a `..` or `.`
element or an empty element, for instance from a trailing `/`, and is not
the path `.` itself, which names the root and is valid), the existence check
is false,
the stat fails before anything is looked up in the tree, with the same
error whatever the tree and the sub-directory are, and the handler goes to
the entry document instead of the file server: the response is status 200,
content type `text/html` and the entry document's bytes. -/
theorem C18_invalid_path_gets_entry (host : Host) (s : SPAServer) (r : Request)
    (content : String) (hfs : s.useFS = true)
    (hin : HasPrefix r.url.path s.basePath = true)
    (hinv : ValidPath (s.relativePath r) = false)
    (hread : ReadFile s.fs s.entryPath = .ok content) :
    s.fileExists host (s.relativePath r) = false ∧
    (∀ f, Stat (FS.embed f) (s.relativePath r) =
      .error ⟨"open", s.relativePath r, ErrKind.notExist⟩) ∧
    (∀ f dir, Stat (FS.sub f dir) (s.relativePath r) =
      .error ⟨"open", s.relativePath r, ErrKind.invalid⟩) ∧
    (∀ w, s.Handler host w r = s.serveEntry host w r) ∧
    s.Handler host ResponseWriter.fresh r =
      { header := [("Content-Type", "text/html")], status := some 200,
        body := content } ∧
    (∀ R : String, R ≠ "." →
      (∃ e ∈ R.data.splitOn '/', e = [] ∨ e = ['.'] ∨ e = ['.', '.']) →
      ValidPath R = false) ∧
    (∀ R : String, HasSuffix R "/" = true → ValidPath R = false) := by
  have hex : s.fileExists host (s.relativePath r) = false := by
    have h := Stat_invalid s.fs _ hinv
    cases hf : s.fs with
    | embed f =>
      rw [hf] at h
      simp [SPAServer.fileExists, hfs, hf, h]
    | sub f dir =>
      rw [hf] at h
      simp [SPAServer.fileExists, hfs, hf, h]
  have hentry : ∀ w, s.Handler host w r = s.serveEntry host w r :=
    fun w => Handler_entry host s w r hin (Or.inr hex)
  refine ⟨hex, fun f => Stat_invalid (FS.embed f) _ hinv,
    fun f dir => Stat_invalid (FS.sub f dir) _ hinv, hentry, ?_,
    ValidPath_false_of_bad_element, ValidPath_false_of_trailing_slash⟩
  rw [hentry]
  exact serveEntry_embedded_ok host s r content hfs hread

/-- C18 (amended) on the embedded tree, at the requests `/../secret`, `/a//b` and
`/assets/`. -/
theorem C18_invalid_path_gets_entry_witness :
    ValidPath (exampleEmbedded.relativePath (GET "/../secret")) = false ∧
    exampleEmbedded.Handler (hostOf []) ResponseWriter.fresh (GET "/../secret") =
      { header := [("Content-Type", "text/html")], status := some 200,
        body := "<html>" } ∧
    exampleEmbedded.fileExists (hostOf []) (exampleEmbedded.relativePath (GET "/a//b"))
      = false ∧
    exampleEmbedded.fileExists (hostOf []) (exampleEmbedded.relativePath (GET "/assets/"))
      = false :=
  ⟨by decide,
   (C18_invalid_path_gets_entry (hostOf []) exampleEmbedded (GET "/../secret") "<html>"
      rfl (by decide) (by decide) rfl).2.2.2.2.1,
   (C18_invalid_path_gets_entry (hostOf []) exampleEmbedded (GET "/a//b") "<html>"
      rfl (by decide) (by decide) rfl).1,
   (C18_invalid_path_gets_entry (hostOf []) exampleEmbedded (GET "/assets/") "<html>"
      rfl (by decide) (by decide) rfl).1⟩

/-! ### C13 -/

theorem mapOpenError_congr (original : ErrKind) (name : String)
    (stat stat2 : String → Except ErrKind Node)
    (hagree : ∀ p, (∃ d, stat p = .ok d ∧ stat2 p = .ok d) ∨
      (∃ e1 e2, stat p = .error e1 ∧ stat2 p = .error e2)) :
    mapOpenError original name stat2 = mapOpenError original name stat := by
  unfold mapOpenError
  by_cases h0 : original = ErrKind.notExist ∨ original = ErrKind.permission
  · simp [h0]
  · simp only [h0, if_false]
    congr 1
    funext i rest
    rcases hagree ⟨['/'].intercalate ((name.data.splitOn '/').take (i + 1))⟩ with
      ⟨d, h1, h2⟩ | ⟨e1, e2, h1, h2⟩
    · rw [h1, h2]
    · rw [h1, h2]

theorem Handler_congr_Stat (host : Host) (stat2 : String → Except ErrKind Node)
    (s : SPAServer) (w : ResponseWriter) (r : Request)
    (hagree : ∀ p, (∃ d, host.Stat p = .ok d ∧ stat2 p = .ok d) ∨
      (∃ e1 e2, host.Stat p = .error e1 ∧ stat2 p = .error e2)) :
    s.Handler ⟨stat2, host.Open, host.typeOf, host.conditionalReply, host.dirList⟩ w r =
      s.Handler host w r := by
  have hDir : ∀ dir, DirOpen
      ⟨stat2, host.Open, host.typeOf, host.conditionalReply, host.dirList⟩ dir =
        DirOpen host dir := by
    intro dir
    funext name
    simp only [DirOpen]
    cases ho : host.Open (Join (if dir = "" then "." else dir)
        (if TrimPrefix (Clean ("/" ++ name)) "/" = "" then "."
          else TrimPrefix (Clean ("/" ++ name)) "/")) with
    | error e => simp [mapOpenError_congr e _ host.Stat stat2 hagree]
    | ok n => rfl
  have hExists : ∀ path,
      s.fileExists ⟨stat2, host.Open, host.typeOf, host.conditionalReply, host.dirList⟩ path =
        s.fileExists host path := by
    intro path
    by_cases hfs : s.useFS = true
    · simp [SPAServer.fileExists, hfs]
    · simp only [SPAServer.fileExists, hfs]
      rcases hagree (Join s.dirPath path) with ⟨d, h1, h2⟩ | ⟨e1, e2, h1, h2⟩
      · simp [h1, h2]
      · simp [h1, h2]
  have hEntry : ∀ w2,
      s.serveEntry ⟨stat2, host.Open, host.typeOf, host.conditionalReply, host.dirList⟩ w2 r =
        s.serveEntry host w2 r := by
    intro w2
    by_cases hfs : s.useFS = true
    · simp [SPAServer.serveEntry, hfs]
    · simp only [SPAServer.serveEntry, hfs, ServeFile, hDir]
      rfl
  have hFile : ∀ w2 path,
      s.serveFile ⟨stat2, host.Open, host.typeOf, host.conditionalReply, host.dirList⟩
          w2 r path =
        s.serveFile host w2 r path := by
    intro w2 path
    rfl
  unfold SPAServer.Handler
  simp only [hExists, hEntry, hFile]

/-- C13: `fileExists` is a total function that returns true exactly when the
stat of the path succeeds, for either kind of asset source, and false for
every stat failure of whatever kind; a request under the base path whose
stat fails takes the entry-document fallback, and the kind of the failure
has no influence on the response: replacing `os.Stat` by one that succeeds
on the same paths but fails for other reasons leaves every response
unchanged. For an embedded-tree handler, whose stat fails with
`invalid argument` for some paths and `file does not exist` for others, any
two requests that take the fallback get the same response. -/
theorem C13_stat_failure_means_absent (host : Host)
    (stat2 : String → Except ErrKind Node) (s : SPAServer) (w : ResponseWriter)
    (r r2 : Request) (path : String)
    (hagree : ∀ p, (∃ d, host.Stat p = .ok d ∧ stat2 p = .ok d) ∨
      (∃ e1 e2, host.Stat p = .error e1 ∧ stat2 p = .error e2)) :
    (s.useFS = true → (s.fileExists host path = true ↔ ∃ d, Stat s.fs path = .ok d)) ∧
    (s.useFS = false →
      (s.fileExists host path = true ↔ ∃ d, host.Stat (Join s.dirPath path) = .ok d)) ∧
    (s.useFS = true → ∀ e, Stat s.fs path = .error e → s.fileExists host path = false) ∧
    (s.useFS = false → ∀ e, host.Stat (Join s.dirPath path) = .error e →
      s.fileExists host path = false) ∧
    (HasPrefix r.url.path s.basePath = true →
      s.fileExists host (s.relativePath r) = false →
      s.Handler host w r = s.serveEntry host w r) ∧
    s.Handler ⟨stat2, host.Open, host.typeOf, host.conditionalReply, host.dirList⟩ w r =
      s.Handler host w r ∧
    (s.useFS = true →
      HasPrefix r.url.path s.basePath = true → HasPrefix r2.url.path s.basePath = true →
      s.fileExists host (s.relativePath r) = false →
      s.fileExists host (s.relativePath r2) = false →
      s.Handler host w r = s.Handler host w r2) := by
  refine ⟨?_, ?_, ?_, ?_, ?_, Handler_congr_Stat host stat2 s w r hagree, ?_⟩
  · intro hfs
    cases hs : Stat s.fs path with
    | error e => simp [SPAServer.fileExists, hfs, hs]
    | ok d => simp [SPAServer.fileExists, hfs, hs]
  · intro hdir
    cases hs : host.Stat (Join s.dirPath path) with
    | error e => simp [SPAServer.fileExists, hdir, hs]
    | ok d => simp [SPAServer.fileExists, hdir, hs]
  · intro hfs e hs
    simp [SPAServer.fileExists, hfs, hs]
  · intro hdir e hs
    simp [SPAServer.fileExists, hdir, hs]
  · intro hin hex
    exact Handler_entry host s w r hin (Or.inr hex)
  · intro hfs hin hin2 hex hex2
    rw [Handler_entry host s w r hin (Or.inr hex),
      Handler_entry host s w r2 hin2 (Or.inr hex2)]
    simp [SPAServer.serveEntry, hfs]

/-- C13 on the directory `/srv/www`: the request `/locked` when every stat
fails with `file does not exist` and when every stat fails with
`permission denied`; and on the embedded tree: the requests `/../x`, whose
stat fails with `invalid argument`, and `/missing`, whose stat fails with
`file does not exist`. -/
theorem C13_stat_failure_means_absent_witness :
    (NewFromDir "/srv/www").Handler
        ⟨fun _ => .error ErrKind.permission, diskLookup exampleDisk,
         fun _ _ => "application/octet-stream",
         fun w _ _ content => (w.WriteHeader 200).Write content, fun _ => ""⟩
        ResponseWriter.fresh (GET "/locked") =
      (NewFromDir "/srv/www").Handler
        ⟨fun _ => .error ErrKind.notExist, diskLookup exampleDisk,
         fun _ _ => "application/octet-stream",
         fun w _ _ content => (w.WriteHeader 200).Write content, fun _ => ""⟩
        ResponseWriter.fresh (GET "/locked") ∧
    (NewFromDir "/srv/www").Handler
        ⟨fun _ => .error ErrKind.notExist, diskLookup exampleDisk,
         fun _ _ => "application/octet-stream",
         fun w _ _ content => (w.WriteHeader 200).Write content, fun _ => ""⟩
        ResponseWriter.fresh (GET "/locked") =
      { header := [("Content-Type", "text/html")], status := some 200,
        body := "<html>" } ∧
    Stat (FS.sub ⟨[("static/index.html", "<html>")]⟩ "static") "../x" =
      .error ⟨"open", "../x", ErrKind.invalid⟩ ∧
    Stat (FS.sub ⟨[("static/index.html", "<html>")]⟩ "static") "missing" =
      .error ⟨"open", "missing", ErrKind.notExist⟩ ∧
    (⟨FS.sub ⟨[("static/index.html", "<html>")]⟩ "static", "", true, "/",
        "index.html"⟩ : SPAServer).Handler (hostOf []) ResponseWriter.fresh
        (GET "/../x") =
      (⟨FS.sub ⟨[("static/index.html", "<html>")]⟩ "static", "", true, "/",
        "index.html"⟩ : SPAServer).Handler (hostOf []) ResponseWriter.fresh
        (GET "/missing") :=
  ⟨(C13_stat_failure_means_absent
      ⟨fun _ => .error ErrKind.notExist, diskLookup exampleDisk,
       fun _ _ => "application/octet-stream",
       fun w _ _ content => (w.WriteHeader 200).Write content, fun _ => ""⟩
      (fun _ => .error ErrKind.permission) (NewFromDir "/srv/www")
      ResponseWriter.fresh (GET "/locked") (GET "/locked") "locked"
      (fun _ => Or.inr ⟨ErrKind.notExist, ErrKind.permission, rfl, rfl⟩)).2.2.2.2.2.1,
   by decide, by decide, by decide,
   (C13_stat_failure_means_absent (hostOf []) (fun _ => .error ErrKind.permission)
      ⟨FS.sub ⟨[("static/index.html", "<html>")]⟩ "static", "", true, "/", "index.html"⟩
      ResponseWriter.fresh (GET "/../x") (GET "/missing") "../x"
      (fun _ => Or.inr ⟨ErrKind.notExist, ErrKind.permission, rfl, rfl⟩)).2.2.2.2.2.2
      rfl (by decide) (by decide) (by decide) (by decide)⟩

/-! ### C12 -/

theorem clone_setPath_read_copy (h : Heap) (r : Nat) (p : String) :
    ((cloneRequestAt h r).1.setPath (cloneRequestAt h r).2 p).read (cloneRequestAt h r).2 =
      { method := (h.read r).method,
        url := { path := p, rawQuery := (h.read r).url.rawQuery },
        header := (h.read r).header, body := (h.read r).body } := by
  simp [cloneRequestAt, Heap.setPath, Heap.read]

theorem clone_setPath_read_original (h : Heap) (r : Nat) (p : String)
    (hr : r < h.nextRequest) (hu : (h.requests r).url < h.nextURL) :
    ((cloneRequestAt h r).1.setPath (cloneRequestAt h r).2 p).read r = h.read r := by
  have h1 : r ≠ h.nextRequest := Nat.ne_of_lt hr
  have h2 : (h.requests r).url ≠ h.nextURL := Nat.ne_of_lt hu
  simp [cloneRequestAt, Heap.setPath, Heap.read, Function.update, h1, h2]

theorem serveFileAt_embedded (host : Host) (s : SPAServer) (h : Heap)
    (w : ResponseWriter) (r : Nat) (R : String) (hfs : s.useFS = true) :
    s.serveFileAt host h w r R =
      FileServerAt host s.fs
        ((cloneRequestAt h r).1.setPath (cloneRequestAt h r).2 ("/" ++ R)) w
        (cloneRequestAt h r).2 := by
  simp [SPAServer.serveFileAt, hfs]

theorem serveFileAt_spec (host : Host) (s : SPAServer) (h : Heap)
    (w : ResponseWriter) (r : Nat) (R : String)
    (hr : r < h.nextRequest) (hu : (h.requests r).url < h.nextURL) :
    (s.serveFileAt host h w r R).1.read r = h.read r ∧
    (s.serveFileAt host h w r R).2 = s.serveFile host w (h.read r) R := by
  by_cases hfs : s.useFS = true
  · have hcopy := clone_setPath_read_copy h r ("/" ++ R)
    have hroot : HasPrefix (((cloneRequestAt h r).1.setPath (cloneRequestAt h r).2
        ("/" ++ R)).read (cloneRequestAt h r).2).url.path "/" = true := by
      rw [hcopy]
      exact HasPrefix_slash_append R
    rw [serveFileAt_embedded host s h w r R hfs]
    constructor
    · simp only [FileServerAt, hroot, if_true]
      exact clone_setPath_read_original h r _ hr hu
    · simp only [FileServerAt, hroot, if_true]
      rw [hcopy]
      simp [SPAServer.serveFile, hfs, FileServer, cloneRequest, HasPrefix_slash_append]
  · simp [SPAServer.serveFileAt, SPAServer.serveFile, hfs]

/-- C12: when an embedded-tree handler serves a literal file with relative
path R, `serveFile` calls the file server on a newly allocated request whose
URL path is `/`+R and whose method, headers, body and remaining URL fields
equal the original's; the request is a different object from the caller's,
and after `serveFile`, and after the whole handler function, the caller's
request still reads as before, URL path included. The response is the one
the handler function computes from the request as a value. -/
theorem C12_file_server_gets_a_copy (host : Host) (s : SPAServer) (h : Heap)
    (w : ResponseWriter) (r : Nat) (R : String) (hfs : s.useFS = true)
    (hr : r < h.nextRequest) (hu : (h.requests r).url < h.nextURL) :
    s.serveFileAt host h w r R =
      FileServerAt host s.fs
        ((cloneRequestAt h r).1.setPath (cloneRequestAt h r).2 ("/" ++ R)) w
        (cloneRequestAt h r).2 ∧
    ((cloneRequestAt h r).1.setPath (cloneRequestAt h r).2 ("/" ++ R)).read
        (cloneRequestAt h r).2 =
      { method := (h.read r).method,
        url := { path := "/" ++ R, rawQuery := (h.read r).url.rawQuery },
        header := (h.read r).header, body := (h.read r).body } ∧
    (cloneRequestAt h r).2 ≠ r ∧
    (s.serveFileAt host h w r R).1.read r = h.read r ∧
    (s.serveFileAt host h w r R).2 = s.serveFile host w (h.read r) R ∧
    (s.HandlerAt host h w r).1.read r = h.read r ∧
    (s.HandlerAt host h w r).2 = s.Handler host w (h.read r) := by
  have hspec := fun w2 R2 => serveFileAt_spec host s h w2 r R2 hr hu
  refine ⟨serveFileAt_embedded host s h w r R hfs, clone_setPath_read_copy h r _, ?_,
    (hspec w R).1, (hspec w R).2, ?_, ?_⟩
  · intro hc
    have : h.nextRequest = r := hc
    omega
  · unfold SPAServer.HandlerAt
    by_cases hin : HasPrefix (h.read r).url.path s.basePath = true
    · by_cases h0 : TrimPrefix (TrimPrefix (h.read r).url.path s.basePath) "/" = ""
      · simp [hin, h0]
      · by_cases hex : s.fileExists host
            (TrimPrefix (TrimPrefix (h.read r).url.path s.basePath) "/") = true
        · simp only [hin, h0, hex]
          exact (hspec _ _).1
        · simp [hin, h0, hex]
    · simp [hin]
  · unfold SPAServer.HandlerAt SPAServer.Handler
    by_cases hin : HasPrefix (h.read r).url.path s.basePath = true
    · by_cases h0 : TrimPrefix (TrimPrefix (h.read r).url.path s.basePath) "/" = ""
      · simp [hin, h0]
      · by_cases hex : s.fileExists host
            (TrimPrefix (TrimPrefix (h.read r).url.path s.basePath) "/") = true
        · simp only [hin, h0, hex]
          exact (hspec _ _).2
        · simp [hin, h0, hex]
    · simp [hin]

/-- C12 on the heap holding `GET /app/bundle.js`, for the embedded-tree
handler mounted at `/app/`: the file server is given the path `/bundle.js`
and the caller's request keeps `/app/bundle.js`. -/
theorem C12_file_server_gets_a_copy_witness :
    (((cloneRequestAt exampleHeap 0).1.setPath (cloneRequestAt exampleHeap 0).2
        ("/" ++ "bundle.js")).read (cloneRequestAt exampleHeap 0).2).url.path =
      "/bundle.js" ∧
    (((exampleEmbedded.WithBasePath "app").HandlerAt (hostOf []) exampleHeap
        ResponseWriter.fresh 0).1.read 0).url.path = "/app/bundle.js" ∧
    ((exampleEmbedded.WithBasePath "app").HandlerAt (hostOf []) exampleHeap
        ResponseWriter.fresh 0).2.body = "js();" :=
  ⟨congrArg (fun q : Request => q.url.path)
      (C12_file_server_gets_a_copy (hostOf []) (exampleEmbedded.WithBasePath "app")
        exampleHeap ResponseWriter.fresh 0 "bundle.js" rfl (by decide) (by decide)).2.1,
   congrArg (fun q : Request => q.url.path)
      (C12_file_server_gets_a_copy (hostOf []) (exampleEmbedded.WithBasePath "app")
        exampleHeap ResponseWriter.fresh 0 "bundle.js" rfl (by decide)
        (by decide)).2.2.2.2.2.1,
   by decide⟩

/-! ### C11 -/

/-- C11 fails on the code: for the directory-backed handler rooted at
`/srv/www`, the request `/../secret` is under the base path and has the
relative path `../secret`; the existence check stats
`filepath.Join("/srv/www", "../secret")`, which is `/srv/secret`, a path
that is neither `/srv/www` nor below it. Nothing rejects the request before
the stat, and the response tells whether the outside path exists: an
untouched response writer when it does, the 400 reply of `http.ServeFile`
when it does not. -/
theorem C11_traversal_leaves_the_root :
    HasPrefix (GET "/../secret").url.path (NewFromDir "/srv/www").basePath = true ∧
    (NewFromDir "/srv/www").relativePath (GET "/../secret") = "../secret" ∧
    Join (NewFromDir "/srv/www").dirPath "../secret" = "/srv/secret" ∧
    ("/srv/secret" : String) ≠ "/srv/www" ∧
    HasPrefix "/srv/secret" "/srv/www/" = false ∧
    (NewFromDir "/srv/www").fileExists (hostOf [("/srv/secret", Node.file "s")])
      "../secret" = true ∧
    (NewFromDir "/srv/www").fileExists (hostOf []) "../secret" = false ∧
    (NewFromDir "/srv/www").Handler (hostOf [("/srv/secret", Node.file "s")])
        ResponseWriter.fresh (GET "/../secret") = ResponseWriter.fresh ∧
    ((NewFromDir "/srv/www").Handler (hostOf []) ResponseWriter.fresh
        (GET "/../secret")).status = some 400 := by
  decide

end Spago
